import Mathlib

/-!
Verification development for the GeographicLib exact-geodesic core
(`src/src/GeodesicExact.cpp`, `src/src/Math.cpp`).

The C++ code computes with IEEE doubles; this development is a shallow
embedding over `ℝ` (exact real arithmetic).  Every definition mirrors the
corresponding source function statement by statement; the floating-point
error terms produced by the compensated-arithmetic tricks (`Math::sum`,
`Math::AngRound`) are provably zero over `ℝ`, which is recorded by lemmas
rather than simplified away in the definitions.  `ℝ` has no NaN, no signed
zero and no infinities: the claims treated here all restrict inputs to
finite non-NaN values, and the places where the source tests `isnan` /
`isfinite` are noted in comments.

Helper routines that the core calls but whose bodies are not part of the
source slice (`Math::sincosd`, `Math::atan2d`, `Math::norm`,
`Math::polyval`, `Math::sq`, and the whole `EllipticFunction` class) are
modelled from the specification and marked as such in their doc comments.
-/

namespace GeographicLib

noncomputable section

open Real

/-! ## Real-arithmetic primitives -/

/-- C `copysign(a, b)`: the magnitude of `a` with the sign of `b`.
Over `ℝ` a non-negative `b` (including `b = 0`) gives `+|a|`. -/
def copysign (a b : ℝ) : ℝ := if b < 0 then -|a| else |a|

/-- C `remainder(x, y)`: `x - y * round(x / y)` with round-to-nearest.
IEEE breaks ties to even while `round` breaks ties upward; the two
conventions differ only at exact ties, where every use below re-fixes the
result through an explicit boundary branch. -/
def remainder (x y : ℝ) : ℝ := x - y * ((round (x / y) : ℤ) : ℝ)

/-- C `fmax` over `ℝ` (no NaNs). -/
def fmax (x y : ℝ) : ℝ := max x y

/-- C `fmin` over `ℝ` (no NaNs). -/
def fmin (x y : ℝ) : ℝ := min x y

/-- Modelled from the spec: `Math::sq(x) = x * x` (§4.1); the inline body is
not in the source slice. -/
def sq (x : ℝ) : ℝ := x * x

/-- Modelled from the spec: C `hypot`, used by `Math::norm` (§4.1). -/
def hypot (x y : ℝ) : ℝ := Real.sqrt (x * x + y * y)

lemma copysign_abs (a b : ℝ) : |copysign a b| = |a| := by
  unfold copysign; split_ifs <;> simp

lemma copysign_of_nonneg (a b : ℝ) (hb : 0 ≤ b) : copysign a b = |a| := by
  unfold copysign; rw [if_neg (not_lt.mpr hb)]

lemma copysign_of_neg (a b : ℝ) (hb : b < 0) : copysign a b = -|a| := by
  unfold copysign; rw [if_pos hb]

lemma remainder_eq_sub (x : ℝ) :
    remainder x 360 = x - 360 * ((round (x / 360) : ℤ) : ℝ) := rfl

lemma abs_remainder_le (x : ℝ) : |remainder x 360| ≤ 180 := by
  have h : remainder x 360 = 360 * (x / 360 - ((round (x / 360) : ℤ) : ℝ)) := by
    unfold remainder; field_simp
  rw [h, abs_mul]
  have h2 := abs_sub_round (x / 360)
  have h3 : |(360 : ℝ)| = 360 := by norm_num
  rw [h3]
  nlinarith [abs_nonneg (x / 360 - ((round (x / 360) : ℤ) : ℝ))]

lemma remainder_of_small (x : ℝ) (h1 : -180 ≤ x) (h2 : x < 180) :
    remainder x 360 = x := by
  have hr : round (x / 360) = 0 := by
    rw [round_eq, Int.floor_eq_zero_iff, Set.mem_Ico]
    constructor
    · linarith
    · linarith
  rw [remainder_eq_sub, hr]
  norm_num

/-! ## `Math` routines from `src/src/Math.cpp` -/

/-- `Math::sum(u, v, t)` (src/src/Math.cpp lines 57–69): error-free sum.
The source routes the arithmetic through volatile temporaries so that the
compiler cannot cancel them; over `ℝ` they cancel exactly, which is the
content of `sum_eq` below. -/
def sum (u v : ℝ) : ℝ × ℝ :=
  let s := u + v
  let up := s - v
  let vpp := s - up
  let up2 := up - u
  let vpp2 := vpp - v
  -- if s = 0, then t = 0 and give t the same sign as s
  (s, if s ≠ 0 then 0 - (up2 + vpp2) else s)

lemma sum_eq (u v : ℝ) : sum u v = (u + v, 0) := by
  unfold sum
  dsimp only
  split_ifs with h
  · norm_num
  · push_neg at h
    norm_num [h]

/-- `Math::AngNormalize(x)` (src/src/Math.cpp lines 71–80): reduce an angle
to `[-180, 180]`, keeping the sign of `x` on the `±180` boundary. -/
def AngNormalize (x : ℝ) : ℝ :=
  let y := remainder x 360
  if |y| = 180 then copysign 180 x else y

/-- `Math::AngDiff(x, y, e)` (src/src/Math.cpp lines 82–95): exact reduced
difference `y - x`, returned as a principal part `d` and an error term `e`
(identically zero over `ℝ`), with the sign of a boundary result `d ∈ {-180,
0, 180}` fixed from `y - x`. -/
def AngDiff (x y : ℝ) : ℝ × ℝ :=
  let p1 := sum (remainder (-x) 360) (remainder y 360)
  let p2 := sum (remainder p1.1 360) p1.2
  let d := p2.1
  let e := p2.2
  -- Fix the sign if d = -180, 0, 180.
  let d2 := if d = 0 ∨ |d| = 180 then copysign d (if e = 0 then y - x else -e) else d
  (d2, e)

/-- `Math::AngRound(x)` (src/src/Math.cpp lines 97–104): coarsen a tiny
value onto its 1/2⁵⁷ quantum.  Over `ℝ` the volatile round trip
`z - (z - y)` restores `y` exactly, so the function is the identity
(`AngRound_eq`). -/
def AngRound (x : ℝ) : ℝ :=
  let z : ℝ := 1 / 16
  let y := |x|
  let w := z - y
  let y2 := if w > 0 then z - w else y
  copysign y2 x

lemma AngRound_eq (x : ℝ) : AngRound x = x := by
  unfold AngRound
  dsimp only
  have habs : (if (1:ℝ)/16 - |x| > 0 then 1/16 - (1/16 - |x|) else |x|) = |x| := by
    split_ifs <;> ring
  rw [habs]
  unfold copysign
  rcases lt_or_le x 0 with h | h
  · rw [if_pos h, abs_abs, abs_of_neg h]; ring
  · rw [if_neg (not_lt.mpr h), abs_abs, abs_of_nonneg h]

/-- A stand-in for the IEEE quiet NaN.  `ℝ` cannot represent NaN; every
claim treated in this development restricts latitudes to `|lat| ≤ 90`, under
which `LatFix` never produces it. -/
def nanR : ℝ := 0

/-- `Math::LatFix(x)` (src/include/GeographicLib/Math.hpp lines 233–234):
NaN for `|x| > 90`, else `x`. -/
def LatFix (x : ℝ) : ℝ := if |x| > 90 then nanR else x

lemma LatFix_of_le (x : ℝ) (h : |x| ≤ 90) : LatFix x = x := by
  unfold LatFix; rw [if_neg (not_lt.mpr h)]

/-! ## Degree trigonometry, modelled from the spec (§4.1)

`Math::sincosd`, `Math::atan2d` and `Math::norm` are declared in the
library's full `Math.hpp` but their bodies are not part of the source
slice.  The spec describes them as degree-argument trig with exact handling
of multiples of 90° and as hypot-normalization; over `ℝ` exact reduction is
automatic. -/

/-- One degree in radians (`Math::degree()`). -/
def degree : ℝ := π / 180

/-- Modelled from the spec: `Math::sincosd(x)` returns
`(sin, cos)` of an angle given in degrees. -/
def sincosd (x : ℝ) : ℝ × ℝ := (Real.sin (x * degree), Real.cos (x * degree))

/-- C `atan2(y, x)` with the usual quadrant conventions; `atan2 0 0 = 0`
(over `ℝ` there is no signed zero to distinguish `±π`). -/
def atan2 (y x : ℝ) : ℝ :=
  if 0 < x then Real.arctan (y / x)
  else if x < 0 then
    (if 0 ≤ y then Real.arctan (y / x) + π else Real.arctan (y / x) - π)
  else if 0 < y then π / 2
  else if y < 0 then -(π / 2)
  else 0

/-- Modelled from the spec: `Math::atan2d(y, x)` is `atan2` in degrees. -/
def atan2d (y x : ℝ) : ℝ := atan2 y x / degree

/-- Modelled from the spec: `Math::norm(s, c)` scales a sine–cosine pair by
`1 / hypot(s, c)` so that it lies on the unit circle. -/
def normPair (s c : ℝ) : ℝ × ℝ :=
  let h := hypot s c
  (s / h, c / h)

/-- Modelled from the spec: `Math::polyval`, Horner evaluation of the listed
coefficients (leading coefficient first). -/
def polyval (p : List ℝ) (x : ℝ) : ℝ := p.foldl (fun y a => y * x + a) 0

lemma arctan_nonneg_of (t : ℝ) (h : 0 ≤ t) : 0 ≤ Real.arctan t := by
  have := Real.arctan_strictMono.monotone h
  rwa [Real.arctan_zero] at this

lemma arctan_nonpos_of (t : ℝ) (h : t ≤ 0) : Real.arctan t ≤ 0 := by
  have := Real.arctan_strictMono.monotone h
  rwa [Real.arctan_zero] at this

lemma atan2_nonneg (y x : ℝ) (hy : 0 ≤ y) : 0 ≤ atan2 y x := by
  unfold atan2
  split_ifs with h1 h2 h3 h4
  · exact arctan_nonneg_of _ (div_nonneg hy h1.le)
  · linarith [Real.neg_pi_div_two_lt_arctan (y / x), Real.pi_pos]
  · linarith [Real.pi_pos]
  · exact absurd hy (not_le.mpr h4)
  · exact le_refl 0

lemma atan2_le_pi (y x : ℝ) (hy : 0 ≤ y) : atan2 y x ≤ π := by
  unfold atan2
  split_ifs with h1 h2 h3 h4
  · linarith [Real.arctan_lt_pi_div_two (y / x), Real.pi_pos]
  · have hd : y / x ≤ 0 := div_nonpos_of_nonneg_of_nonpos hy h2.le
    linarith [arctan_nonpos_of (y / x) hd]
  · linarith [Real.pi_pos]
  · exact absurd hy (not_le.mpr h4)
  · linarith [Real.pi_pos]

/-! ## The AngDiff reduction law (claim C6) -/

lemma copysign_cases (a b : ℝ) : copysign a b = a ∨ copysign a b = -a := by
  unfold copysign
  rcases abs_cases a with ⟨h, _⟩ | ⟨h, _⟩ <;> split_ifs <;> simp [h]

/-- C6: for all finite `x`, `y` the pair `(d, e) = AngDiff(x, y)` satisfies
`d + e ≡ y − x (mod 360)` with `|d| ≤ 180` (so `AngDiff(x, y) + x ≡ y (mod
360)`), and a boundary value `d ∈ {−180, 0, 180}` carries the sign of
`y − x`.  Over `ℝ` the error term `e` is identically `0` (the FP truncation
it tracks does not occur), which the theorem also records. -/
theorem AngDiff_reduction_law (x y : ℝ) :
    ∃ k : ℤ, (AngDiff x y).1 + (AngDiff x y).2 = (y - x) + 360 * k ∧
      |(AngDiff x y).1| ≤ 180 ∧ (AngDiff x y).2 = 0 ∧
      ((AngDiff x y).1 = 180 → 0 ≤ y - x) ∧
      ((AngDiff x y).1 = -180 → y - x < 0) ∧
      ((AngDiff x y).1 = 0 → ∃ m : ℤ, y - x = 360 * m) := by
  have hA : AngDiff x y =
      (if remainder (remainder (-x) 360 + remainder y 360) 360 = 0 ∨
          |remainder (remainder (-x) 360 + remainder y 360) 360| = 180
       then copysign (remainder (remainder (-x) 360 + remainder y 360) 360) (y - x)
       else remainder (remainder (-x) 360 + remainder y 360) 360, 0) := by
    unfold AngDiff
    simp only [sum_eq]
    norm_num
  set d := remainder (remainder (-x) 360 + remainder y 360) 360 with hd
  have hcong : ∃ k : ℤ, d = (y - x) + 360 * k := by
    refine ⟨-(round (-x / 360)) - round (y / 360) -
      round ((remainder (-x) 360 + remainder y 360) / 360), ?_⟩
    rw [hd, remainder_eq_sub, remainder_eq_sub, remainder_eq_sub]
    push_cast
    ring
  obtain ⟨k, hk⟩ := hcong
  have hdle : |d| ≤ 180 := abs_remainder_le _
  rw [hA]
  dsimp only
  split_ifs with hb
  · -- boundary branch: d ∈ {-180, 0, 180}, sign fixed from y - x
    have habs : |copysign d (y - x)| = |d| := copysign_abs d (y - x)
    have hc : copysign d (y - x) = d ∨ copysign d (y - x) = -d := copysign_cases d (y - x)
    have hcong2 : ∃ k2 : ℤ, copysign d (y - x) = (y - x) + 360 * k2 := by
      rcases hc with hc | hc
      · exact ⟨k, by rw [hc]; exact hk⟩
      · rcases hb with hb0 | hb1
        · refine ⟨k, ?_⟩
          rw [hc, hb0, neg_zero]
          rw [hb0] at hk
          exact hk
        · rcases (abs_eq (by norm_num : (0:ℝ) ≤ 180)).mp hb1 with h1 | h1
          · refine ⟨k - 1, ?_⟩
            rw [hc, h1]
            rw [h1] at hk
            push_cast
            linarith
          · refine ⟨k + 1, ?_⟩
            rw [hc, h1]
            rw [h1] at hk
            push_cast
            linarith
    obtain ⟨k2, hk2⟩ := hcong2
    refine ⟨k2, by rw [hk2]; ring, by rw [habs]; exact hdle, rfl, ?_, ?_, ?_⟩
    · intro h180
      by_contra hneg
      push_neg at hneg
      rw [copysign_of_neg d (y - x) hneg] at h180
      nlinarith [abs_nonneg d]
    · intro h180
      by_contra hpos
      push_neg at hpos
      rw [copysign_of_nonneg d (y - x) hpos] at h180
      nlinarith [abs_nonneg d]
    · intro h0
      have : |d| = 0 := by rw [← habs, h0, abs_zero]
      have hd0 : d = 0 := abs_eq_zero.mp this
      rw [hd0] at hk
      exact ⟨-k, by push_cast; linarith⟩
  · -- interior branch: d itself is already the reduced difference
    push_neg at hb
    refine ⟨k, by rw [hk]; ring, hdle, rfl, ?_, ?_, ?_⟩
    · intro h180
      exact absurd (by rw [h180]; norm_num : |d| = 180) hb.2
    · intro h180
      exact absurd (by rw [h180]; norm_num : |d| = 180) hb.2
    · intro h0
      exact absurd h0 hb.1

/-! ## Engine construction (claim C5)

`GeodesicExact::GeodesicExact(a, f)` (src/src/GeodesicExact.cpp lines
42–91).  The derived quantities are definitions on the engine record; the
constructor body performs the two validity checks (over `ℝ` every value is
finite, so the `isfinite` conjuncts of the source are identically true) and
then builds the `C4` table, whose misalignment check never fires (claim
C9). -/

/-- The exact-geodesic engine: the ellipsoid parameters together with the
floating-point-dependent constants, carried as parameters of the embedding
(`tiny = sqrt(min normal)`, `tol0 = machine epsilon`, `digits` = bits of
precision; 53 for double). -/
structure Geod where
  a : ℝ
  f : ℝ
  tiny : ℝ
  tol0 : ℝ
  digits : ℕ

def Geod.f1 (g : Geod) : ℝ := 1 - g.f

def Geod.e2 (g : Geod) : ℝ := g.f * (2 - g.f)

def Geod.ep2 (g : Geod) : ℝ := g.e2 / sq g.f1

def Geod.n3 (g : Geod) : ℝ := g.f / (2 - g.f)

def Geod.b (g : Geod) : ℝ := g.a * g.f1

def Geod.tol1 (g : Geod) : ℝ := 200 * g.tol0

def Geod.tol2 (g : Geod) : ℝ := Real.sqrt g.tol0

def Geod.tolb (g : Geod) : ℝ := g.tol0 * g.tol2

def Geod.xthresh (g : Geod) : ℝ := 1000 * g.tol2

def Geod.etol2 (g : Geod) : ℝ :=
  0.1 * g.tol2 / Real.sqrt (fmax 0.001 |g.f| * fmin 1 (1 - g.f / 2) / 2)

/-- `maxit1_ = 20`. -/
def maxit1 : ℕ := 20

/-- `maxit2_ = maxit1_ + Math::digits() + 10`. -/
def Geod.maxit2 (g : Geod) : ℕ := maxit1 + g.digits + 10

/-- The well-formedness assumptions used by the geodesic theorems: the two
constructor checks plus positivity of the floating-point constants. -/
def Geod.Valid (g : Geod) : Prop :=
  0 < g.a ∧ 0 < g.b ∧ 0 < g.tiny ∧ g.tiny ≤ 1 ∧ 0 < g.tol0

/-- The constructor body of `GeodesicExact::GeodesicExact(a, f)`
(src/src/GeodesicExact.cpp lines 85–91): reject a non-positive equatorial
radius, then a non-positive polar semi-axis `b = a·(1−f)`.  `isfinite` is
identically true over `ℝ`.  The trailing `C4coeff()` call's misalignment
throw is unreachable (claim C9) and is not modelled here. -/
def GeodesicExactInit (a f tiny tol0 : ℝ) (digits : ℕ) : Except String Geod :=
  if ¬ (0 < a) then Except.error ("Equatorial radius is not positive")
  else if ¬ (0 < a * (1 - f)) then Except.error ("Polar semi-axis is not positive")
  else Except.ok { a := a, f := f, tiny := tiny, tol0 := tol0, digits := digits }

/-- C5: construction fails with "Equatorial radius is not positive" exactly
when `a` is non-positive, fails with "Polar semi-axis is not positive"
exactly when `a` is fine but `b = a·(1−f)` is non-positive, and succeeds
(producing the engine, and an engine is produced only then) for every other
input.  Non-finite `a` or `b` cannot be represented in the `ℝ` embedding;
for all representable (finite) inputs this is the source's exact behaviour. -/
theorem geodesicInit_error_conditions (a f tiny tol0 : ℝ) (digits : ℕ) :
    (GeodesicExactInit a f tiny tol0 digits =
        Except.error ("Equatorial radius is not positive") ↔ a ≤ 0) ∧
    (GeodesicExactInit a f tiny tol0 digits =
        Except.error ("Polar semi-axis is not positive") ↔
      (0 < a ∧ a * (1 - f) ≤ 0)) ∧
    (GeodesicExactInit a f tiny tol0 digits =
        Except.ok { a := a, f := f, tiny := tiny, tol0 := tol0, digits := digits } ↔
      (0 < a ∧ 0 < a * (1 - f))) := by
  unfold GeodesicExactInit
  split_ifs with h1 h2
  · -- success branch: 0 < a and 0 < a·(1−f)
    refine ⟨⟨fun hc => hc.elim,
        fun hc => absurd h1 (not_lt.mpr hc)⟩,
      ⟨fun hc => hc.elim,
        fun hc => absurd h2 (not_lt.mpr hc.2)⟩,
      ⟨fun _ => ⟨h1, h2⟩, fun _ => rfl⟩⟩
  · -- polar-semi-axis failure: 0 < a but a·(1−f) ≤ 0
    have hb : a * (1 - f) ≤ 0 := le_of_not_lt h2
    refine ⟨⟨fun hc => ?_, fun hc => absurd h1 (not_lt.mpr hc)⟩,
      ⟨fun _ => ⟨h1, hb⟩, fun _ => rfl⟩,
      ⟨fun hc => hc.elim,
        fun hc => absurd hc.2 (not_lt.mpr hb)⟩⟩
    have hs : ("Polar semi-axis is not positive" : String) =
        "Equatorial radius is not positive" := by injection hc
    exact absurd hs (by decide)
  · -- equatorial-radius failure: a ≤ 0
    have ha : a ≤ 0 := le_of_not_lt h1
    refine ⟨⟨fun _ => ha, fun _ => rfl⟩,
      ⟨fun hc => ?_, fun hc => absurd hc.1 h1⟩,
      ⟨fun hc => hc.elim,
        fun hc => absurd hc.1 h1⟩⟩
    have hs : ("Equatorial radius is not positive" : String) =
        "Polar semi-axis is not positive" := by injection hc
    exact absurd hs (by decide)

/-! ## The C4 coefficient machinery (claim C9)

`GeodesicExact::C4f` (src/src/GeodesicExact.cpp lines 902–916) and
`GeodesicExact::C4coeff` (lines 8187–8201 for order 30; the other orders
use the same loop) both end with a `C4 misalignment` check on their offset
counters.  The loops are embedded with the coefficient data abstract (a
list of reals): the counters do not depend on it. -/

/-- `nC4x_ = nC4·(nC4+1)/2`: the length of the packed `_cC4x` triangle. -/
def nC4x (n : ℕ) : ℕ := n * (n + 1) / 2

/-- Number of entries of the compile-time `coeff` table; the source's
`static_assert` pins `sizeof(coeff)/sizeof(real)` to this value (the
comment `count = 5425` in the order-30 table matches it). -/
def c4CoeffLen (n : ℕ) : ℕ := n * (n + 1) * (n + 5) / 6

/-- `GeodesicExact::C4f(eps, c)` (src/src/GeodesicExact.cpp lines 902–916):
evaluate the `nC4` Clenshaw coefficients from the packed table, advancing
the offset `o` by `m + 1` per row and multiplying `mult` by `eps`.
Returns the coefficient vector together with the final offset `o`, which
the source then compares against `nC4x_` (throwing `C4 misalignment` on
mismatch). -/
def C4f (n : ℕ) (cC4x : List ℝ) (eps : ℝ) : List ℝ × ℕ :=
  let r := (List.range n).foldl
    (fun (st : ℕ × ℝ × List ℝ) l =>
      let m := n - l - 1
      (st.1 + m + 1,
       st.2.1 * eps,
       st.2.2 ++ [st.2.1 * polyval ((cC4x.drop st.1).take (m + 1)) eps]))
    (0, 1, [])
  (r.2.2, r.1)

/-- `GeodesicExact::C4coeff()` (src/src/GeodesicExact.cpp lines 8187–8201):
build `_cC4x` from the compile-time table, advancing `o` by `m + 2` and `k`
by one per block.  Returns the final counters `(o, k)` together with the
packed table; the source compares `(o, k)` against the table length and
`nC4x_` (throwing `C4 misalignment` on mismatch). -/
def C4coeff (n : ℕ) (coeff : List ℝ) (x : ℝ) : (ℕ × ℕ) × List ℝ :=
  (List.range n).foldl
    (fun (st : (ℕ × ℕ) × List ℝ) l =>
      (List.range (n - l)).foldl
        (fun (st2 : (ℕ × ℕ) × List ℝ) i =>
          let j := n - 1 - i
          let m := n - j - 1
          let val := polyval ((coeff.drop st2.1.1).take (m + 1)) x /
            coeff.getD (st2.1.1 + m + 1) 0
          ((st2.1.1 + m + 2, st2.1.2 + 1), st2.2 ++ [val]))
        st)
    ((0, 0), [])

/-- A fold whose first state component evolves independently of the rest
projects onto a fold over that component alone. -/
lemma foldl_fst_morphism {σ α γ : Type} (step : σ → γ → σ) (G : α → γ → α)
    (pr : σ → α) (h : ∀ s c, pr (step s c) = G (pr s) c) :
    ∀ (l : List γ) (s : σ), pr (l.foldl step s) = l.foldl G (pr s) := by
  intro l
  induction l with
  | nil => intro s; rfl
  | cons a t ih =>
    intro s
    simp only [List.foldl_cons]
    rw [ih, h]

/-- The pure offset recursion of `C4f`. -/
def c4fOffset (n : ℕ) : ℕ :=
  (List.range n).foldl (fun o l => o + (n - l - 1) + 1) 0

/-- The pure counter recursion of `C4coeff`. -/
def c4coeffCounters (n : ℕ) : ℕ × ℕ :=
  (List.range n).foldl
    (fun ok l =>
      (List.range (n - l)).foldl
        (fun (ok2 : ℕ × ℕ) i => (ok2.1 + (n - (n - 1 - i) - 1) + 2, ok2.2 + 1))
        ok)
    (0, 0)

lemma C4f_offset_eq (n : ℕ) (cC4x : List ℝ) (eps : ℝ) :
    (C4f n cC4x eps).2 = c4fOffset n := by
  unfold C4f c4fOffset
  exact foldl_fst_morphism _ _ Prod.fst (fun s c => rfl) (List.range n) (0, 1, [])

lemma C4coeff_counters_eq (n : ℕ) (coeff : List ℝ) (x : ℝ) :
    (C4coeff n coeff x).1 = c4coeffCounters n := by
  unfold C4coeff c4coeffCounters
  refine foldl_fst_morphism _ _ Prod.fst ?_ (List.range n) ((0, 0), [])
  intro s c
  exact foldl_fst_morphism _ _ Prod.fst (fun s2 c2 => rfl) (List.range (n - c)) s

set_option maxRecDepth 8000 in
/-- C9: the "C4 misalignment" branches are unreachable.  For each
compile-time order `nC4 ∈ {24, 27, 30}` and any coefficient data, the
offset counter of `C4f` ends at `nC4x = nC4·(nC4+1)/2`, and the counters of
`C4coeff` end at the coefficient-table length `nC4·(nC4+1)·(nC4+5)/6` and
at `nC4x`; hence neither post-condition check can throw. -/
theorem c4_misalignment_unreachable (cC4x coeff : List ℝ) (eps x : ℝ) :
    ((C4f 24 cC4x eps).2 = nC4x 24 ∧
      (C4coeff 24 coeff x).1 = (c4CoeffLen 24, nC4x 24)) ∧
    ((C4f 27 cC4x eps).2 = nC4x 27 ∧
      (C4coeff 27 coeff x).1 = (c4CoeffLen 27, nC4x 27)) ∧
    ((C4f 30 cC4x eps).2 = nC4x 30 ∧
      (C4coeff 30 coeff x).1 = (c4CoeffLen 30, nC4x 30)) := by
  refine ⟨⟨?_, ?_⟩, ⟨?_, ?_⟩, ⟨?_, ?_⟩⟩ <;>
    first
      | (rw [C4f_offset_eq]; decide)
      | (rw [C4coeff_counters_eq]; decide)

/-! ## CosSeries: Clenshaw summation (claim C8)

`GeodesicExact::CosSeries` (src/src/GeodesicExact.cpp lines 99–117):
Clenshaw summation of `Σ c[i]·cos((2i+1)x)`, unrolled by two.  The
coefficient array is walked from one past the last element downward; here
the array is a list and the walk is over its reverse. -/

/-- One (un-unrolled) Clenshaw update `(y0, y1) ← (ar·y0 − y1 + c, y0)`. -/
def clenshawStep (ar : ℝ) (p : ℝ × ℝ) (c : ℝ) : ℝ × ℝ :=
  (ar * p.1 - p.2 + c, p.1)

/-- The unrolled-by-two inner loop of `CosSeries`: two coefficients are
consumed per iteration so that the two accumulators return to their roles
(`y1 = ar*y0 - y1 + *--c; y0 = ar*y1 - y0 + *--c`). -/
def cosSeriesPairs (ar : ℝ) : List ℝ → ℝ × ℝ → ℝ × ℝ
  | a :: b :: rest, p =>
    let y1 := ar * p.1 - p.2 + a
    let y0 := ar * y1 - p.1 + b
    cosSeriesPairs ar rest (y0, y1)
  | _, p => p

/-- `GeodesicExact::CosSeries(sinx, cosx, c, n)`: if `n` is odd the top
coefficient seeds `y0`, then the even remainder is consumed two at a time;
returns `cosx · (y0 − y1)`. -/
def CosSeries (sinx cosx : ℝ) (c : List ℝ) : ℝ :=
  let ar := 2 * (cosx - sinx) * (cosx + sinx)  -- 2 * cos(2 * x)
  let rc := c.reverse
  let p :=
    if c.length % 2 = 1 then cosSeriesPairs ar rc.tail (rc.headD 0, 0)
    else cosSeriesPairs ar rc (0, 0)
  cosx * (p.1 - p.2)

/-- The sum the spec ascribes to `CosSeries` (§4.3.8), written as stated:
`y = Σ_{i=0}^{n−1} c[i]·cos((2i+1)·x)`. -/
def cosSeriesSpec (x : ℝ) (c : List ℝ) : ℝ :=
  ∑ i ∈ Finset.range c.length, c.getD i 0 * Real.cos ((2 * i + 1) * x)

lemma cosSeriesPairs_eq_foldl (ar : ℝ) :
    ∀ (k : ℕ) (l : List ℝ), l.length ≤ k → l.length % 2 = 0 → ∀ p : ℝ × ℝ,
      cosSeriesPairs ar l p = l.foldl (clenshawStep ar) p := by
  intro k
  induction k with
  | zero =>
    intro l hl _ p
    have : l = [] := List.eq_nil_of_length_eq_zero (Nat.le_zero.mp hl)
    subst this
    rfl
  | succ k ih =>
    intro l hl hmod p
    match l with
    | [] => rfl
    | [a] => simp at hmod
    | a :: b :: rest =>
      have hr : rest.length % 2 = 0 := by
        simp only [List.length_cons] at hmod
        omega
      have hrl : rest.length ≤ k := by
        simp only [List.length_cons] at hl
        omega
      show cosSeriesPairs ar rest _ = _
      rw [ih rest hrl hr]
      simp only [List.foldl_cons, clenshawStep]

lemma cosSeries_eq_foldr (sinx cosx : ℝ) (c : List ℝ) :
    CosSeries sinx cosx c =
      cosx * ((c.foldr (fun a p => clenshawStep (2 * (cosx - sinx) * (cosx + sinx)) p a)
          (0, 0)).1 -
        (c.foldr (fun a p => clenshawStep (2 * (cosx - sinx) * (cosx + sinx)) p a)
          (0, 0)).2) := by
  unfold CosSeries
  dsimp only
  have hrev : ∀ p : ℝ × ℝ,
      c.reverse.foldl (clenshawStep (2 * (cosx - sinx) * (cosx + sinx))) p =
      c.foldr (fun a p => clenshawStep (2 * (cosx - sinx) * (cosx + sinx)) p a) p := by
    intro p
    rw [List.foldl_reverse]
  rcases Nat.even_or_odd c.length with he | ho
  · have h0 : c.length % 2 = 0 := Nat.even_iff.mp he
    have hne : ¬ (c.length % 2 = 1) := by omega
    rw [if_neg hne,
      cosSeriesPairs_eq_foldl _ c.reverse.length _ le_rfl (by simpa using h0), hrev]
  · have h1 : c.length % 2 = 1 := Nat.odd_iff.mp ho
    rw [if_pos h1]
    -- the odd case: the seeding of y0 with the top coefficient is one
    -- Clenshaw step from (0, 0)
    have hne : c.reverse ≠ [] := by
      intro hnil
      rw [List.reverse_eq_nil_iff] at hnil
      simp [hnil] at h1
    obtain ⟨h, t, hht⟩ := List.exists_cons_of_ne_nil hne
    have hlen : t.length % 2 = 0 := by
      have hlr : c.reverse.length = c.length := List.length_reverse c
      rw [hht] at hlr
      simp only [List.length_cons] at hlr
      omega
    rw [hht]
    simp only [List.tail_cons, List.headD_cons]
    have hseed : (h, (0:ℝ)) = clenshawStep (2 * (cosx - sinx) * (cosx + sinx)) (0, 0) h := by
      simp [clenshawStep]
    rw [hseed, cosSeriesPairs_eq_foldl _ t.length _ le_rfl hlen, ← List.foldl_cons,
      ← hht, hrev]

/-- The Chebyshev-type recurrence behind Clenshaw summation for the odd
cosines `φ_m = cos((2m+1)x)`: `φ_{m+1} = 2cos(2x)·φ_m − φ_{m−1}`. -/
lemma oddcos_rec (x : ℝ) (m : ℤ) :
    Real.cos ((2 * ((m:ℝ) + 1) + 1) * x) =
      2 * Real.cos (2 * x) * Real.cos ((2 * (m:ℝ) + 1) * x) -
        Real.cos ((2 * (m:ℝ) - 1) * x) := by
  have h := Real.cos_add_cos ((2 * ((m:ℝ) + 1) + 1) * x) ((2 * (m:ℝ) - 1) * x)
  have e1 : (((2 * ((m:ℝ) + 1) + 1) * x) + ((2 * (m:ℝ) - 1) * x)) / 2 =
      (2 * (m:ℝ) + 1) * x := by ring
  have e2 : (((2 * ((m:ℝ) + 1) + 1) * x) - ((2 * (m:ℝ) - 1) * x)) / 2 = 2 * x := by ring
  rw [e1, e2] at h
  linarith [h]

lemma clenshaw_foldr_invariant (x : ℝ) (c : List ℝ) :
    ∀ m : ℤ,
      Real.cos ((2 * (m:ℝ) + 1) * x) *
          (c.foldr (fun a p => clenshawStep (2 * Real.cos (2 * x)) p a) (0, 0)).1 -
        Real.cos ((2 * (m:ℝ) - 1) * x) *
          (c.foldr (fun a p => clenshawStep (2 * Real.cos (2 * x)) p a) (0, 0)).2 =
      ∑ i ∈ Finset.range c.length,
        c.getD i 0 * Real.cos ((2 * ((i:ℝ) + (m:ℝ)) + 1) * x) := by
  induction c with
  | nil => intro m; simp
  | cons a t ih =>
    intro m
    have hstep : (List.foldr (fun a p => clenshawStep (2 * Real.cos (2 * x)) p a) (0, 0)
        (a :: t)) =
        clenshawStep (2 * Real.cos (2 * x))
          (t.foldr (fun a p => clenshawStep (2 * Real.cos (2 * x)) p a) (0, 0)) a := by
      simp [List.foldr_cons]
    rw [hstep]
    set q := t.foldr (fun a p => clenshawStep (2 * Real.cos (2 * x)) p a) (0, 0) with hq
    have hsum : ∑ i ∈ Finset.range (a :: t).length,
        (a :: t).getD i 0 * Real.cos ((2 * ((i:ℝ) + (m:ℝ)) + 1) * x) =
        a * Real.cos ((2 * (m:ℝ) + 1) * x) +
          ∑ i ∈ Finset.range t.length,
            t.getD i 0 * Real.cos ((2 * ((i:ℝ) + ((m:ℝ) + 1)) + 1) * x) := by
      rw [List.length_cons, Finset.sum_range_succ']
      simp only [List.getD_cons_succ, List.getD_cons_zero, Nat.cast_zero, Nat.cast_add,
        Nat.cast_one]
      rw [add_comm]
      congr 1
      · congr 2
        ring
      · apply Finset.sum_congr rfl
        intro i _
        congr 2
        ring
    rw [hsum]
    have iht := ih (m + 1)
    have hcast : ((m + 1 : ℤ) : ℝ) = (m:ℝ) + 1 := by push_cast; ring
    rw [hcast] at iht
    have hrec := oddcos_rec x m
    have e3 : (2 * ((m:ℝ) + 1) - 1) = (2 * (m:ℝ) + 1) := by ring
    rw [e3] at iht
    simp only [clenshawStep]
    linear_combination iht - q.1 * hrec

/-- C8: for every coefficient list `c` and angle `x` (with `sinx = sin x`,
`cosx = cos x`), the Clenshaw-summed, two-way-unrolled `CosSeries` equals,
in exact real arithmetic, the naive sum `Σ_{i<n} c[i]·cos((2i+1)·x)`. -/
theorem cosSeries_eq_spec (x : ℝ) (c : List ℝ) :
    CosSeries (Real.sin x) (Real.cos x) c = cosSeriesSpec x c := by
  have har : 2 * (Real.cos x - Real.sin x) * (Real.cos x + Real.sin x) =
      2 * Real.cos (2 * x) := by
    rw [Real.cos_two_mul']
    ring
  rw [cosSeries_eq_foldr, har]
  have hinv := clenshaw_foldr_invariant x c 0
  have h0 : Real.cos ((2 * ((0:ℤ):ℝ) + 1) * x) = Real.cos x := by norm_num
  have h1 : Real.cos ((2 * ((0:ℤ):ℝ) - 1) * x) = Real.cos x := by
    have : (2 * ((0:ℤ):ℝ) - 1) * x = -x := by push_cast; ring
    rw [this, Real.cos_neg]
  rw [h0, h1] at hinv
  unfold cosSeriesSpec
  rw [mul_sub]
  rw [hinv]
  apply Finset.sum_congr rfl
  intro i _
  congr 2
  push_cast
  ring

/-! ## The elliptic-integral collaborator

Modelled from the spec: `EllipticFunction` (§4.2) is an external
collaborator whose implementation is not part of the source slice; the
engine uses it only through the named operations `E`, `D`, `H`, `deltaE`,
`deltaD`, `deltaH` and the parameter accessor `k2`.  The parameter state is
a record, and the operations are abstract function parameters: every
theorem below holds for every interpretation of them. -/

/-- The parameter state `(k², α², k′², α′²)` of an `EllipticFunction`. -/
structure EllipticFunction where
  k2 : ℝ
  alpha2 : ℝ
  kp2 : ℝ
  alphap2 : ℝ

/-- The one-argument constructor `EllipticFunction(k2)` with defaulted
complements. -/
def EllipticFunction.mk1 (k2 : ℝ) : EllipticFunction :=
  { k2 := k2, alpha2 := 0, kp2 := 1 - k2, alphap2 := 1 }

/-- The named operations the core requires of `EllipticFunction`
(complete integrals `E`, `D`, `H` and the incremental `delta` forms). -/
structure EllipticAPI where
  cE : EllipticFunction → ℝ
  cD : EllipticFunction → ℝ
  cH : EllipticFunction → ℝ
  deltaE : EllipticFunction → ℝ → ℝ → ℝ → ℝ
  deltaD : EllipticFunction → ℝ → ℝ → ℝ → ℝ
  deltaH : EllipticFunction → ℝ → ℝ → ℝ → ℝ

/-- A trivial interpretation of the elliptic operations, used to
instantiate universally quantified theorems at a concrete engine. -/
def apiZero : EllipticAPI :=
  { cE := fun _ => 0, cD := fun _ => 0, cH := fun _ => 0,
    deltaE := fun _ _ _ _ => 0, deltaD := fun _ _ _ _ => 0,
    deltaH := fun _ _ _ _ => 0 }

/-! ## `GeodesicExact::Lengths` (src/src/GeodesicExact.cpp lines 556–598) -/

/-- Outputs of `Lengths`; the source computes each field only when the
output mask requests it, which is a pure optimization — here all fields are
always computed. -/
structure LengthsOut where
  s12b : ℝ
  m12b : ℝ
  m0 : ℝ
  M12 : ℝ
  M21 : ℝ

/-- `GeodesicExact::Lengths`: distance, reduced length and geodesic scales
between two points on the auxiliary sphere. -/
def Lengths (g : Geod) (api : EllipticAPI) (E : EllipticFunction)
    (sig12 ssig1 csig1 dn1 ssig2 csig2 dn2 cbet1 cbet2 : ℝ) : LengthsOut :=
  let s12b := api.cE E / (π / 2) *
    (sig12 + (api.deltaE E ssig2 csig2 dn2 - api.deltaE E ssig1 csig1 dn1))
  let m0x := - E.k2 * api.cD E / (π / 2)
  let J12 := m0x *
    (sig12 + (api.deltaD E ssig2 csig2 dn2 - api.deltaD E ssig1 csig1 dn1))
  -- Parens around (csig1 * ssig2) and (ssig1 * csig2) as in the source
  let m12b := dn2 * (csig1 * ssig2) - dn1 * (ssig1 * csig2) -
    csig1 * csig2 * J12
  let csig12 := csig1 * csig2 + ssig1 * ssig2
  let t := g.ep2 * (cbet1 - cbet2) * (cbet1 + cbet2) / (dn1 + dn2)
  { s12b := s12b, m12b := m12b, m0 := m0x,
    M12 := csig12 + (t * ssig2 - csig2 * J12) * ssig1 / dn1,
    M21 := csig12 - (t * ssig1 - csig1 * J12) * ssig2 / dn2 }

/-! ## `GeodesicExact::Astroid` (src/src/GeodesicExact.cpp lines 600–650) -/

/-- C `cbrt`: the real cube root (`cbrt(-8) = -2`). -/
def cbrt (x : ℝ) : ℝ :=
  if x < 0 then -((-x) ^ ((1:ℝ) / 3)) else x ^ ((1:ℝ) / 3)

/-- `GeodesicExact::Astroid(x, y)`: the positive root `k` of
`k⁴ + 2k³ − (x² + y² − 1)k² − 2y²k − y² = 0`. -/
def Astroid (x y : ℝ) : ℝ :=
  let p := sq x
  let q := sq y
  let r := (p + q - 1) / 6
  if ¬ (q = 0 ∧ r ≤ 0) then
    let S := p * q / 4
    let r2 := sq r
    let r3 := r * r2
    let disc := S * (S + 2 * r3)
    let u :=
      if disc ≥ 0 then
        let T3 := S + r3
        let T3b := T3 + (if T3 < 0 then -Real.sqrt disc else Real.sqrt disc)
        let T := cbrt T3b
        r + T + (if T ≠ 0 then r2 / T else 0)
      else
        let ang := atan2 (Real.sqrt (-disc)) (-(S + r3))
        r + 2 * r * Real.cos (ang / 3)
    let v := Real.sqrt (sq u + q)
    let uv := if u < 0 then q / (v - u) else u + v
    let w := (uv - q) / (2 * v)
    uv / (Real.sqrt (uv + sq w) + w)
  else
    -- q == 0 && r <= 0: y = 0 with |x| <= 1, handled directly
    0

/-! ## `GeodesicExact::InverseStart` (src/src/GeodesicExact.cpp lines
652–804) -/

/-- Outputs of `InverseStart`.  In the source `salp2`, `calp2` are written
only when the returned `sig12 ≥ 0` and `dnm` only for short lines; the
caller reads them only in those cases, so the other branches return
placeholders (0, 0, 1). -/
structure InvStart where
  sig12 : ℝ
  salp1 : ℝ
  calp1 : ℝ
  salp2 : ℝ
  calp2 : ℝ
  dnm : ℝ

/-- `GeodesicExact::InverseStart`: a starting point for Newton's method in
`(salp1, calp1)` (function value −1), or — for really short lines — the
full spherical solution with `sig12 ≥ 0`. -/
def InverseStart (g : Geod) (api : EllipticAPI) (E : EllipticFunction)
    (sbet1 cbet1 dn1 sbet2 cbet2 dn2 lam12 slam12 clam12 : ℝ) : InvStart :=
  -- bet12 = bet2 - bet1 in [0, pi); bet12a = bet2 + bet1 in (-pi, 0]
  let sbet12 := sbet2 * cbet1 - cbet2 * sbet1
  let cbet12 := cbet2 * cbet1 + sbet2 * sbet1
  let sbet12a := sbet2 * cbet1 + cbet2 * sbet1
  let shortline : Prop := cbet12 ≥ 0 ∧ sbet12 < 1/2 ∧ cbet2 * lam12 < 1/2
  let sbetm2a := sq (sbet1 + sbet2)
  -- sin((bet1+bet2)/2)^2
  let sbetm2 := sbetm2a / (sbetm2a + sq (cbet1 + cbet2))
  let dnmv := Real.sqrt (1 + g.ep2 * sbetm2)
  let omg12v := lam12 / (g.f1 * dnmv)
  let somg12 := if shortline then Real.sin omg12v else slam12
  let comg12 := if shortline then Real.cos omg12v else clam12
  let dnm := if shortline then dnmv else 1
  let salp1 := cbet2 * somg12
  let calp1 :=
    if comg12 ≥ 0 then sbet12 + cbet2 * sbet1 * sq somg12 / (1 + comg12)
    else sbet12a - cbet2 * sbet1 * sq somg12 / (1 - comg12)
  let ssig12 := hypot salp1 calp1
  let csig12 := sbet1 * sbet2 + cbet1 * cbet2 * comg12
  -- "really short lines": accept the spherical solution; sig12 is assigned
  -- (and salp2, calp2 published) only in this case
  let reallyShort : Prop := shortline ∧ ssig12 < g.etol2
  let sig12out := if reallyShort then atan2 ssig12 csig12 else -1
  let salp2v := cbet1 * somg12
  let calp2v := sbet12 - cbet1 * sbet2 *
    (if comg12 ≥ 0 then sq somg12 / (1 + comg12) else 1 - comg12)
  let p2 := normPair salp2v calp2v
  let salp2out := if reallyShort then p2.1 else 0
  let calp2out := if reallyShort then p2.2 else 0
  -- the candidate (salp1, calp1) before the final sanity normalization:
  -- the spherical guess, unless the near-antipodal oblate case asks for
  -- the astroid solve
  let pc : ℝ × ℝ :=
    if reallyShort then (salp1, calp1)
    else if |g.n3| > 0.1 ∨ csig12 ≥ 0 ∨
        ssig12 ≥ 6 * |g.n3| * π * sq cbet1 then
      -- the zeroth-order spherical approximation is OK
      (salp1, calp1)
    else
      -- scale lam12 and bet2 to the (x, y) astroid coordinate system
      let lam12x := atan2 (-slam12) (-clam12)
      let k2a := sq sbet1 * g.ep2
      let E1 : EllipticFunction :=
        { k2 := -k2a, alpha2 := -g.ep2, kp2 := 1 + k2a, alphap2 := 1 + g.ep2 }
      let lamscaleP := g.e2 / g.f1 * cbet1 * 2 * api.cH E1
      let betscaleP := lamscaleP * cbet1
      let cbet12a := cbet2 * cbet1 - sbet2 * sbet1
      let bet12a := atan2 sbet12a cbet12a
      let LL := Lengths g api E (π + bet12a) sbet1 (-cbet1) dn1 sbet2 cbet2 dn2
        cbet1 cbet2
      let xN := -1 + LL.m12b / (cbet1 * cbet2 * LL.m0 * π)
      let betscaleN := if xN < -(1/100) then sbet12a / xN else -g.f * sq cbet1 * π
      let lamscaleN := betscaleN / cbet1
      let x := if g.f ≥ 0 then lam12x / lamscaleP else xN
      let y := if g.f ≥ 0 then sbet12a / betscaleP else lam12x / lamscaleN
      let lamscale := if g.f ≥ 0 then lamscaleP else lamscaleN
      if y > -g.tol1 ∧ x > -1 - g.xthresh then
        -- strip near the singular cut
        if g.f ≥ 0 then
          let s := fmin 1 (-x)
          (s, -Real.sqrt (1 - sq s))
        else
          let cc := fmax (if x > -g.tol1 then 0 else -1) x
          (Real.sqrt (1 - sq cc), cc)
      else
        -- estimate omg12 from the astroid problem and update alp1
        let k := Astroid x y
        let omg12a := lamscale *
          (if g.f ≥ 0 then -x * k / (1 + k) else -y * (1 + k) / k)
        let somg12b := Real.sin omg12a
        let comg12b := -Real.cos omg12a
        (cbet2 * somg12b,
         sbet12a - cbet2 * sbet1 * sq somg12b / (1 - comg12b))
  -- sanity check on the starting guess (source lines 797–803)
  let p1 := if ¬ (pc.1 ≤ 0) then normPair pc.1 pc.2 else ((1:ℝ), (0:ℝ))
  { sig12 := sig12out, salp1 := p1.1, calp1 := p1.2,
    salp2 := salp2out, calp2 := calp2out, dnm := dnm }

/-! ## `GeodesicExact::Lambda12` (src/src/GeodesicExact.cpp lines 806–900) -/

/-- Outputs of `Lambda12`.  The returned function value `lam12` is the
residual `λ12(α1) − λ12_target` (the target enters through `slam120`,
`clam120`); `dlam12` is its derivative, computed only when `diffp`. -/
structure L12Out where
  lam12 : ℝ
  salp2 : ℝ
  calp2 : ℝ
  sig12 : ℝ
  ssig1 : ℝ
  csig1 : ℝ
  ssig2 : ℝ
  csig2 : ℝ
  domg12 : ℝ
  dlam12 : ℝ
  E : EllipticFunction

/-- `GeodesicExact::Lambda12`: the forward map from `α1` to the longitude
gap, along with the second azimuth and the auxiliary-sphere coordinates. -/
def Lambda12 (g : Geod) (api : EllipticAPI)
    (sbet1 cbet1 dn1 sbet2 cbet2 dn2 salp1 calp1in slam120 clam120 : ℝ)
    (diffp : Bool) : L12Out :=
  -- break the degeneracy of the equatorial line
  let calp1 := if sbet1 = 0 ∧ calp1in = 0 then -g.tiny else calp1in
  -- sin(alp1) * cos(bet1) = sin(alp0)
  let salp0 := salp1 * cbet1
  let calp0 := hypot calp1 (salp1 * sbet1)  -- calp0 > 0
  -- tan(bet1) = tan(sig1) * cos(alp1); tan(omg1) = sin(alp0) * tan(sig1)
  let somg1 := salp0 * sbet1
  let comg1 := calp1 * cbet1
  let cchi1 := g.f1 * dn1 * comg1
  let p1 := normPair sbet1 comg1
  let ssig1 := p1.1
  let csig1 := p1.2
  -- enforce symmetries in the case abs(bet2) = -bet1
  let salp2 := if cbet2 ≠ cbet1 then salp0 / cbet2 else salp1
  let calp2 :=
    if cbet2 ≠ cbet1 ∨ |sbet2| ≠ -sbet1 then
      Real.sqrt (sq (calp1 * cbet1) +
        (if cbet1 < -sbet1 then (cbet2 - cbet1) * (cbet1 + cbet2)
         else (sbet1 - sbet2) * (sbet1 + sbet2))) / cbet2
    else |calp1|
  let somg2 := salp0 * sbet2
  let comg2 := calp2 * cbet2
  let cchi2 := g.f1 * dn2 * comg2
  let p2 := normPair sbet2 comg2
  let ssig2 := p2.1
  let csig2 := p2.2
  -- sig12 = sig2 - sig1, limit to [0, pi]
  let sig12 := atan2 (fmax 0 (csig1 * ssig2 - ssig1 * csig2))
    (csig1 * csig2 + ssig1 * ssig2)
  -- omg12 = omg2 - omg1, limit to [0, pi]
  let somg12 := fmax 0 (comg1 * somg2 - somg1 * comg2)
  let comg12 := comg1 * comg2 + somg1 * somg2
  let k2 := sq calp0 * g.ep2
  let E : EllipticFunction :=
    { k2 := -k2, alpha2 := -g.ep2, kp2 := 1 + k2, alphap2 := 1 + g.ep2 }
  -- chi12 = chi2 - chi1, limit to [0, pi]
  let schi12 := fmax 0 (cchi1 * somg2 - somg1 * cchi2)
  let cchi12 := cchi1 * cchi2 + somg1 * somg2
  -- eta = chi12 - lam120
  let eta := atan2 (schi12 * clam120 - cchi12 * slam120)
    (cchi12 * clam120 + schi12 * slam120)
  let deta12 := -g.e2 / g.f1 * salp0 * api.cH E / (π / 2) *
    (sig12 + (api.deltaH E ssig2 csig2 dn2 - api.deltaH E ssig1 csig1 dn1))
  let lam12 := eta + deta12
  let domg12 := deta12 + atan2 (schi12 * comg12 - cchi12 * somg12)
    (cchi12 * comg12 + schi12 * somg12)
  let dlam12 :=
    if diffp then
      if calp2 = 0 then -2 * g.f1 * dn1 / sbet1
      else (Lengths g api E sig12 ssig1 csig1 dn1 ssig2 csig2 dn2
          cbet1 cbet2).m12b * g.f1 / (calp2 * cbet2)
    else 0  -- unset in the source when diffp is false, and then unread
  { lam12 := lam12, salp2 := salp2, calp2 := calp2, sig12 := sig12,
    ssig1 := ssig1, csig1 := csig1, ssig2 := ssig2, csig2 := csig2,
    domg12 := domg12, dlam12 := dlam12, E := E }

/-! ## The Newton / bisection loop of `GenInverse`
(src/src/GeodesicExact.cpp lines 348–420) -/

/-- The inputs of the loop that stay fixed across iterations. -/
structure NCtx where
  sbet1 : ℝ
  cbet1 : ℝ
  dn1 : ℝ
  sbet2 : ℝ
  cbet2 : ℝ
  dn2 : ℝ
  slam12 : ℝ
  clam12 : ℝ

/-- The mutable state of the Newton loop: the current azimuth estimate, the
bracket `(alp1a, alp1b)`, the two trip flags and the outputs of the most
recent `Lambda12` call. -/
structure NSt where
  salp1 : ℝ
  calp1 : ℝ
  salp1a : ℝ
  calp1a : ℝ
  salp1b : ℝ
  calp1b : ℝ
  tripn : Bool
  tripb : Bool
  salp2 : ℝ
  calp2 : ℝ
  sig12 : ℝ
  ssig1 : ℝ
  csig1 : ℝ
  ssig2 : ℝ
  csig2 : ℝ
  domg12 : ℝ
  E : EllipticFunction

/-- One post-evaluation step of the loop (source lines 384–419): update the
bracket from the sign of `v`, then either take the Newton step (when
`numit < maxit1`, `dv > 0` and the rotated azimuth stays in range) or
bisect the bracket, setting `tripb` when the bracket has collapsed. -/
def newtonAdvance (g : Geod) (numit : ℕ) (v dv : ℝ) (st : NSt) : NSt :=
  let st1 :=
    if v > 0 ∧ (numit > maxit1 ∨ st.calp1 / st.salp1 > st.calp1b / st.salp1b) then
      { st with salp1b := st.salp1, calp1b := st.calp1 }
    else if v < 0 ∧ (numit > maxit1 ∨ st.calp1 / st.salp1 < st.calp1a / st.salp1a) then
      { st with salp1a := st.salp1, calp1a := st.calp1 }
    else st
  let dalp1 := -v / dv
  let sdalp1 := Real.sin dalp1
  let cdalp1 := Real.cos dalp1
  let nsalp1 := st1.salp1 * cdalp1 + st1.calp1 * sdalp1
  if numit < maxit1 ∧ dv > 0 ∧ nsalp1 > 0 ∧ |dalp1| < π then
    let ncalp1 := st1.calp1 * cdalp1 - st1.salp1 * sdalp1
    let p := normPair nsalp1 ncalp1
    { st1 with salp1 := p.1, calp1 := p.2,
               tripn := decide (|v| ≤ 16 * g.tol0) }
  else
    -- bisection: the midpoint of the bracket is the next estimate
    let p := normPair ((st1.salp1a + st1.salp1b) / 2) ((st1.calp1a + st1.calp1b) / 2)
    { st1 with salp1 := p.1, calp1 := p.2, tripn := false,
               tripb := decide (|st1.salp1a - p.1| + (st1.calp1a - p.2) < g.tolb ∨
                 |p.1 - st1.salp1b| + (p.2 - st1.calp1b) < g.tolb) }

/-- The loop `for (numit = 0; numit < maxit2_ || GEOGRAPHICLIB_PANIC;
++numit)` in a fixed-precision build (`GEOGRAPHICLIB_PANIC = false`): the
fuel is `maxit2 − numit`, each iteration evaluates `Lambda12` and either
breaks (on `tripb` or a small residual) or advances.  Returns the final
state together with the number of `Lambda12` evaluations made. -/
def newtonLoop (g : Geod) (api : EllipticAPI) (ctx : NCtx) :
    ℕ → ℕ → NSt → NSt × ℕ
  | 0, _, st => (st, 0)
  | Nat.succ fuel, numit, st =>
    let r := Lambda12 g api ctx.sbet1 ctx.cbet1 ctx.dn1 ctx.sbet2 ctx.cbet2
      ctx.dn2 st.salp1 st.calp1 ctx.slam12 ctx.clam12 (decide (numit < maxit1))
    let st1 := { st with salp2 := r.salp2, calp2 := r.calp2, sig12 := r.sig12,
                         ssig1 := r.ssig1, csig1 := r.csig1, ssig2 := r.ssig2,
                         csig2 := r.csig2, domg12 := r.domg12, E := r.E }
    -- reversed test to allow escape with NaNs (no NaN over ℝ)
    if st.tripb ∨ ¬ (|r.lam12| ≥ (if st.tripn then 8 else 1) * g.tol0) then
      (st1, 1)
    else
      let rest := newtonLoop g api ctx fuel (numit + 1)
        (newtonAdvance g numit r.lam12 r.dlam12 st1)
      (rest.1, rest.2 + 1)

/-! ## `GeodesicExact::GenInverse` (src/src/GeodesicExact.cpp lines
165–521)

The function is factored, exactly as the source reads, into the
canonicalization of the inputs (lines 176–215), the reduction to the
auxiliary sphere (lines 217–251), the branch dispatch (meridional /
equatorial / short-line / Newton, lines 253–436) which only sees the
canonical data, and the finalisation that re-applies the three sign
registers (lines 508–520, and the `atan2d` of the azimuth overload, lines
534–537).  The `AREA` outputs (`S12`) are not modelled: the output mask is
fixed to `DISTANCE | AZIMUTH | REDUCEDLENGTH | GEODESICSCALE`, under which
the `outmask & AREA` blocks are dead. -/

/-- The canonical form of the inverse-problem inputs together with the
three sign registers. -/
structure Canon where
  lon12 : ℝ
  lon12s : ℝ
  lam12 : ℝ
  slam12 : ℝ
  clam12 : ℝ
  lat1 : ℝ
  lat2 : ℝ
  lonsign : ℝ
  latsign : ℝ
  swapp : ℝ

/-- Canonicalization step of `GenInverse` (source lines 176–204): make the
longitude difference positive, coarsen, pick the precise quadrant for
`(slam12, clam12)`, swap the points so `|lat1| ≥ |lat2|` and flip signs so
`lat1 ≤ 0`.  `isnan(lat2)` is identically false over `ℝ`. -/
def canonicalize (lat1 lon1 lat2 lon2 : ℝ) : Canon :=
  let p := AngDiff lon1 lon2
  let lonsign : ℝ := if p.1 < 0 then -1 else 1
  let lon12 := lonsign * AngRound p.1
  let lon12s := AngRound ((180 - lon12) - lonsign * p.2)
  let lam12 := lon12 * degree
  let sc :=
    if lon12 > 90 then
      let q := sincosd lon12s
      (q.1, -q.2)
    else sincosd lon12
  let lat1r := AngRound (LatFix lat1)
  let lat2r := AngRound (LatFix lat2)
  let swapp : ℝ := if |lat1r| < |lat2r| then -1 else 1
  let lonsign2 := if swapp < 0 then -lonsign else lonsign
  let lat1s := if swapp < 0 then lat2r else lat1r
  let lat2s := if swapp < 0 then lat1r else lat2r
  let latsign : ℝ := if lat1s < 0 then 1 else -1
  { lon12 := lon12, lon12s := lon12s, lam12 := lam12,
    slam12 := sc.1, clam12 := sc.2,
    lat1 := lat1s * latsign, lat2 := lat2s * latsign,
    lonsign := lonsign2, latsign := latsign, swapp := swapp }

/-- The auxiliary-sphere data at the two canonical points. -/
structure Aux where
  sbet1 : ℝ
  cbet1 : ℝ
  dn1 : ℝ
  sbet2 : ℝ
  cbet2 : ℝ
  dn2 : ℝ

/-- Reduction to the auxiliary sphere (source lines 222–251): scaled,
normalized sine/cosine of the reduced latitudes, the pole guard
`cbet ← fmax(tiny, cbet)`, the snap of `bet2` onto `±bet1` in the sensitive
configurations, and `dn = √(1 + e′²·sin²β)` (for `f ≥ 0`). -/
def auxSetup (g : Geod) (c : Canon) : Aux :=
  let q1 := sincosd c.lat1
  let n1 := normPair (q1.1 * g.f1) q1.2
  let sbet1 := n1.1
  let cbet1 := fmax g.tiny n1.2
  let q2 := sincosd c.lat2
  let n2 := normPair (q2.1 * g.f1) q2.2
  let sbet2p := n2.1
  let cbet2p := fmax g.tiny n2.2
  let sbet2 :=
    if cbet1 < -sbet1 then
      (if cbet2p = cbet1 then (if sbet2p < 0 then sbet1 else -sbet1) else sbet2p)
    else sbet2p
  let cbet2 :=
    if cbet1 < -sbet1 then cbet2p
    else (if |sbet2p| = -sbet1 then cbet1 else cbet2p)
  let dn1 :=
    if g.f ≥ 0 then Real.sqrt (1 + g.ep2 * sq sbet1)
    else Real.sqrt (1 - g.e2 * sq cbet1) / g.f1
  let dn2 :=
    if g.f ≥ 0 then Real.sqrt (1 + g.ep2 * sq sbet2)
    else Real.sqrt (1 - g.e2 * sq cbet2) / g.f1
  { sbet1 := sbet1, cbet1 := cbet1, dn1 := dn1,
    sbet2 := sbet2, cbet2 := cbet2, dn2 := dn2 }

/-- The outputs of the canonical solve, before the sign registers are
re-applied. -/
structure Raw where
  a12 : ℝ
  s12x : ℝ
  m12x : ℝ
  M12 : ℝ
  M21 : ℝ
  salp1 : ℝ
  calp1 : ℝ
  salp2 : ℝ
  calp2 : ℝ

/-- The equatorial branch (source lines 302–314): the geodesic runs along
the equator; `α1 = α2 = 90°`, `s12 = a·λ12`, `σ12 = ω12 = λ12/f1`. -/
def equatorialRaw (g : Geod) (c : Canon) : Raw :=
  let sig12 := c.lam12 / g.f1
  { a12 := c.lon12 / g.f1, s12x := g.a * c.lam12,
    m12x := g.b * Real.sin sig12,
    M12 := Real.cos sig12, M21 := Real.cos sig12,
    salp1 := 1, calp1 := 0, salp2 := 1, calp2 := 0 }

/-- The short-line branch (source lines 326–333): `InverseStart` already
solved the problem on the auxiliary sphere scaled by `dnm`. -/
def shortRaw (g : Geod) (is : InvStart) : Raw :=
  { a12 := is.sig12 / degree,
    s12x := is.sig12 * g.b * is.dnm,
    m12x := sq is.dnm * g.b * Real.sin (is.sig12 / is.dnm),
    M12 := Real.cos (is.sig12 / is.dnm), M21 := Real.cos (is.sig12 / is.dnm),
    salp1 := is.salp1, calp1 := is.calp1, salp2 := is.salp2, calp2 := is.calp2 }

/-- The Newton branch (source lines 334–428): run the bracketed Newton
loop from the `InverseStart` guess, then one more `Lengths` call. -/
def newtonRaw (g : Geod) (api : EllipticAPI) (c : Canon) (x : Aux)
    (is : InvStart) : Raw :=
  -- initial values of the loop state; sig12/ssig/csig are the source's
  -- warning-suppression zeros, overwritten by the first Lambda12 call
  let st0 : NSt :=
    { salp1 := is.salp1, calp1 := is.calp1,
      salp1a := g.tiny, calp1a := 1, salp1b := g.tiny, calp1b := -1,
      tripn := false, tripb := false,
      salp2 := 0, calp2 := 0, sig12 := 0, ssig1 := 0, csig1 := 0,
      ssig2 := 0, csig2 := 0, domg12 := 0,
      E := EllipticFunction.mk1 (-g.ep2) }
  let ctx : NCtx :=
    { sbet1 := x.sbet1, cbet1 := x.cbet1, dn1 := x.dn1,
      sbet2 := x.sbet2, cbet2 := x.cbet2, dn2 := x.dn2,
      slam12 := c.slam12, clam12 := c.clam12 }
  let st := (newtonLoop g api ctx g.maxit2 0 st0).1
  let L := Lengths g api st.E st.sig12 st.ssig1 st.csig1 x.dn1
    st.ssig2 st.csig2 x.dn2 x.cbet1 x.cbet2
  { a12 := st.sig12 / degree, s12x := L.s12b * g.b, m12x := L.m12b * g.b,
    M12 := L.M12, M21 := L.M21,
    salp1 := st.salp1, calp1 := st.calp1, salp2 := st.salp2, calp2 := st.calp2 }

/-- The non-meridional dispatch (source lines 300–436): equatorial when
`sbet1 = 0` and the longitude gap is not too close to antipodal, otherwise
`InverseStart` followed by either the short-line solution or Newton. -/
def nonMeridianRaw (g : Geod) (api : EllipticAPI) (c : Canon) (x : Aux) : Raw :=
  if x.sbet1 = 0 ∧ (g.f ≤ 0 ∨ c.lon12s ≥ g.f * 180) then equatorialRaw g c
  else
    let is := InverseStart g api (EllipticFunction.mk1 (-g.ep2))
      x.sbet1 x.cbet1 x.dn1 x.sbet2 x.cbet2 x.dn2 c.lam12 c.slam12 c.clam12
    if is.sig12 ≥ 0 then shortRaw g is else newtonRaw g api c x is

/-- The canonical solve (source lines 217–436): meridional branch with its
acceptance test, falling through to the non-meridional dispatch when a
shorter non-meridional path exists (prolate near-antipodal case). -/
def solveCanonical (g : Geod) (api : EllipticAPI) (c : Canon) : Raw :=
  let x := auxSetup g c
  if c.lat1 = -90 ∨ c.slam12 = 0 then
    -- endpoints on a single full meridian
    let calp1 := c.clam12
    let salp1 := c.slam12
    let ssig1 := x.sbet1
    let csig1 := calp1 * x.cbet1
    let ssig2 := x.sbet2
    let csig2 := (1 : ℝ) * x.cbet2
    let sig12 := atan2 (fmax 0 (csig1 * ssig2 - ssig1 * csig2))
      (csig1 * csig2 + ssig1 * ssig2)
    let L := Lengths g api (EllipticFunction.mk1 (-g.ep2)) sig12
      ssig1 csig1 x.dn1 ssig2 csig2 x.dn2 x.cbet1 x.cbet2
    if sig12 < 1 ∨ L.m12b ≥ 0 then
      -- accept the meridional solution
      let reset := sig12 < 3 * g.tiny ∨
        (sig12 < g.tol0 ∧ (L.s12b < 0 ∨ L.m12b < 0))
      let sig12z := if reset then 0 else sig12
      let s12z := if reset then 0 else L.s12b
      let m12z := if reset then 0 else L.m12b
      { a12 := sig12z / degree, s12x := s12z * g.b, m12x := m12z * g.b,
        M12 := L.M12, M21 := L.M21,
        salp1 := salp1, calp1 := calp1, salp2 := 0, calp2 := 1 }
    else
      -- m12 < 0: prolate and too close to antipodal; fall through
      nonMeridianRaw g api c x
  else
    nonMeridianRaw g api c x

/-- The user-visible outputs of `GenInverse` (area omitted). -/
structure Out where
  a12 : ℝ
  s12 : ℝ
  m12 : ℝ
  M12 : ℝ
  M21 : ℝ
  salp1 : ℝ
  calp1 : ℝ
  salp2 : ℝ
  calp2 : ℝ
  azi1 : ℝ
  azi2 : ℝ

/-- Finalisation (source lines 438–442 and 508–520, plus the `atan2d` of
the azimuth-returning overload): coerce `−0`, swap the azimuth pairs and
the geodesic scales when `swapp < 0`, then apply `swapp·lonsign` to the
sines and `swapp·latsign` to the cosines. -/
def finalizeOut (c : Canon) (r : Raw) : Out :=
  let s12 := 0 + r.s12x
  let m12 := 0 + r.m12x
  let s1 := if c.swapp < 0 then r.salp2 else r.salp1
  let c1 := if c.swapp < 0 then r.calp2 else r.calp1
  let s2 := if c.swapp < 0 then r.salp1 else r.salp2
  let c2 := if c.swapp < 0 then r.calp1 else r.calp2
  let M12 := if c.swapp < 0 then r.M21 else r.M12
  let M21 := if c.swapp < 0 then r.M12 else r.M21
  let salp1 := s1 * (c.swapp * c.lonsign)
  let calp1 := c1 * (c.swapp * c.latsign)
  let salp2 := s2 * (c.swapp * c.lonsign)
  let calp2 := c2 * (c.swapp * c.latsign)
  { a12 := r.a12, s12 := s12, m12 := m12, M12 := M12, M21 := M21,
    salp1 := salp1, calp1 := calp1, salp2 := salp2, calp2 := calp2,
    azi1 := atan2d salp1 calp1, azi2 := atan2d salp2 calp2 }

/-- `GeodesicExact::GenInverse(lat1, lon1, lat2, lon2, …)` with output mask
`DISTANCE | AZIMUTH | REDUCEDLENGTH | GEODESICSCALE`. -/
def GenInverse (g : Geod) (api : EllipticAPI) (lat1 lon1 lat2 lon2 : ℝ) : Out :=
  let c := canonicalize lat1 lon1 lat2 lon2
  finalizeOut c (solveCanonical g api c)

/-- A concrete unit-sphere engine used to instantiate the universally
quantified geodesic theorems (`a = 1`, `f = 0`, with admissible stand-ins
for the floating-point constants). -/
def gEx : Geod :=
  { a := 1, f := 0, tiny := 1/2, tol0 := 1/2, digits := 53 }

/-! ## Claim C1: the Newton loop is bounded -/

lemma newtonLoop_calls_le (g : Geod) (api : EllipticAPI) (ctx : NCtx) :
    ∀ (fuel numit : ℕ) (st : NSt),
      (newtonLoop g api ctx fuel numit st).2 ≤ fuel := by
  intro fuel
  induction fuel with
  | zero => intro numit st; exact le_refl 0
  | succ n ih =>
    intro numit st
    simp only [newtonLoop]
    split_ifs <;>
      first
        | exact Nat.succ_le_succ (Nat.zero_le n)
        | exact Nat.succ_le_succ (ih (numit + 1) _)

/-- C1: in a fixed-precision build (`GEOGRAPHICLIB_PANIC = false`) the
Newton-plus-bisection loop of `GenInverse` evaluates `Lambda12` at most
`maxit2 = maxit1 + digits + 10` times (`maxit1 = 20`, hence 83 when
`digits = 53`, i.e. for double) and then returns normally with the
best-so-far state: `newtonLoop` is a total function whose evaluation count
is bounded by its fuel `maxit2`, and `newtonRaw` (the Newton branch of the
canonical solve) runs it with exactly that fuel.  The bracketing fallback
(`newtonAdvance`'s else branch) always bisects `(alp1a, alp1b)`, which is
what keeps the residual progressing, but the hard bound above holds
unconditionally. -/
theorem newton_loop_iteration_bound (g : Geod) (api : EllipticAPI)
    (ctx : NCtx) (st : NSt) :
    (newtonLoop g api ctx g.maxit2 0 st).2 ≤ g.maxit2 ∧
    g.maxit2 = maxit1 + g.digits + 10 ∧ maxit1 = 20 ∧
    (g.digits = 53 → g.maxit2 = 83) := by
  refine ⟨newtonLoop_calls_le g api ctx g.maxit2 0 st, rfl, rfl, ?_⟩
  intro h
  simp [Geod.maxit2, maxit1, h]

/-! ## Range lemmas for `sig12` (used by claim C10) -/

lemma hypot_nonneg (x y : ℝ) : 0 ≤ hypot x y := Real.sqrt_nonneg _

lemma fmax_zero_nonneg (w : ℝ) : 0 ≤ fmax 0 w := le_max_left 0 w

lemma Lambda12_sig12_range (g : Geod) (api : EllipticAPI)
    (sbet1 cbet1 dn1 sbet2 cbet2 dn2 salp1 calp1in slam120 clam120 : ℝ)
    (diffp : Bool) :
    0 ≤ (Lambda12 g api sbet1 cbet1 dn1 sbet2 cbet2 dn2 salp1 calp1in
        slam120 clam120 diffp).sig12 ∧
      (Lambda12 g api sbet1 cbet1 dn1 sbet2 cbet2 dn2 salp1 calp1in
        slam120 clam120 diffp).sig12 ≤ π := by
  unfold Lambda12
  dsimp only
  exact ⟨atan2_nonneg _ _ (fmax_zero_nonneg _), atan2_le_pi _ _ (fmax_zero_nonneg _)⟩

lemma newtonAdvance_sig12 (g : Geod) (numit : ℕ) (v dv : ℝ) (st : NSt) :
    (newtonAdvance g numit v dv st).sig12 = st.sig12 := by
  unfold newtonAdvance
  dsimp only
  split_ifs <;> rfl

lemma newtonLoop_sig12_range (g : Geod) (api : EllipticAPI) (ctx : NCtx) :
    ∀ (fuel numit : ℕ) (st : NSt), 0 ≤ st.sig12 → st.sig12 ≤ π →
      0 ≤ (newtonLoop g api ctx fuel numit st).1.sig12 ∧
        (newtonLoop g api ctx fuel numit st).1.sig12 ≤ π := by
  intro fuel
  induction fuel with
  | zero => intro numit st h1 h2; exact ⟨h1, h2⟩
  | succ n ih =>
    intro numit st h1 h2
    simp only [newtonLoop]
    have hL := Lambda12_sig12_range g api ctx.sbet1 ctx.cbet1 ctx.dn1 ctx.sbet2
      ctx.cbet2 ctx.dn2 st.salp1 st.calp1 ctx.slam12 ctx.clam12
      (decide (numit < maxit1))
    split_ifs <;>
      first
        | exact hL
        | (refine ih (numit + 1) _ ?_ ?_ <;> rw [newtonAdvance_sig12] <;>
            first
              | exact hL.1
              | exact hL.2)

lemma InverseStart_sig12_cases (g : Geod) (api : EllipticAPI)
    (E : EllipticFunction)
    (sbet1 cbet1 dn1 sbet2 cbet2 dn2 lam12 slam12 clam12 : ℝ) :
    (InverseStart g api E sbet1 cbet1 dn1 sbet2 cbet2 dn2 lam12 slam12
        clam12).sig12 = -1 ∨
      (0 ≤ (InverseStart g api E sbet1 cbet1 dn1 sbet2 cbet2 dn2 lam12 slam12
          clam12).sig12 ∧
        (InverseStart g api E sbet1 cbet1 dn1 sbet2 cbet2 dn2 lam12 slam12
          clam12).sig12 ≤ π) := by
  unfold InverseStart
  dsimp only
  split_ifs <;>
    first
      | exact Or.inl rfl
      | exact Or.inr ⟨atan2_nonneg _ _ (hypot_nonneg _ _),
          atan2_le_pi _ _ (hypot_nonneg _ _)⟩

/-! ## Claim C4: the canonicalization invariants -/

lemma AngDiff_snd_zero (x y : ℝ) : (AngDiff x y).2 = 0 := by
  unfold AngDiff
  simp only [sum_eq]

lemma AngDiff_abs_fst_le (x y : ℝ) : |(AngDiff x y).1| ≤ 180 := by
  unfold AngDiff
  simp only [sum_eq, add_zero]
  split_ifs <;>
    first
      | (rw [copysign_abs]; exact abs_remainder_le _)
      | exact abs_remainder_le _

lemma canon_lon12_def (lat1 lon1 lat2 lon2 : ℝ) :
    (canonicalize lat1 lon1 lat2 lon2).lon12 =
      (if (AngDiff lon1 lon2).1 < 0 then (-1:ℝ) else 1) *
        AngRound (AngDiff lon1 lon2).1 := rfl

lemma canon_lon12_bounds (lat1 lon1 lat2 lon2 : ℝ) :
    0 ≤ (canonicalize lat1 lon1 lat2 lon2).lon12 ∧
      (canonicalize lat1 lon1 lat2 lon2).lon12 ≤ 180 := by
  rw [canon_lon12_def, AngRound_eq]
  rcases abs_le.mp (AngDiff_abs_fst_le lon1 lon2) with ⟨hlo, hhi⟩
  split_ifs with h
  · constructor <;> linarith
  · constructor <;> linarith

lemma canon_lon12s_eq (lat1 lon1 lat2 lon2 : ℝ) :
    (canonicalize lat1 lon1 lat2 lon2).lon12s =
      180 - (canonicalize lat1 lon1 lat2 lon2).lon12 := by
  have h0 : (canonicalize lat1 lon1 lat2 lon2).lon12s =
      AngRound ((180 - (canonicalize lat1 lon1 lat2 lon2).lon12) -
        (if (AngDiff lon1 lon2).1 < 0 then (-1:ℝ) else 1) *
          (AngDiff lon1 lon2).2) := rfl
  rw [h0, AngDiff_snd_zero, mul_zero, sub_zero, AngRound_eq]

lemma canon_lam12_eq (lat1 lon1 lat2 lon2 : ℝ) :
    (canonicalize lat1 lon1 lat2 lon2).lam12 =
      (canonicalize lat1 lon1 lat2 lon2).lon12 * degree := rfl

lemma canon_lat_bounds (lat1 lon1 lat2 lon2 : ℝ)
    (h1 : |lat1| ≤ 90) (h2 : |lat2| ≤ 90) :
    -90 ≤ (canonicalize lat1 lon1 lat2 lon2).lat1 ∧
      (canonicalize lat1 lon1 lat2 lon2).lat1 ≤ 0 ∧
      (canonicalize lat1 lon1 lat2 lon2).lat1 ≤
        (canonicalize lat1 lon1 lat2 lon2).lat2 ∧
      (canonicalize lat1 lon1 lat2 lon2).lat2 ≤
        -(canonicalize lat1 lon1 lat2 lon2).lat1 := by
  unfold canonicalize
  dsimp only
  rw [LatFix_of_le lat1 h1, LatFix_of_le lat2 h2, AngRound_eq, AngRound_eq]
  rcases abs_cases lat1 with ⟨ha1, ha1s⟩ | ⟨ha1, ha1s⟩ <;>
    rcases abs_cases lat2 with ⟨ha2, ha2s⟩ | ⟨ha2, ha2s⟩ <;>
    split_ifs <;>
    refine ⟨by linarith, by linarith, by linarith, by linarith⟩

lemma canon_signs (lat1 lon1 lat2 lon2 : ℝ) :
    ((canonicalize lat1 lon1 lat2 lon2).lonsign = 1 ∨
      (canonicalize lat1 lon1 lat2 lon2).lonsign = -1) ∧
    ((canonicalize lat1 lon1 lat2 lon2).latsign = 1 ∨
      (canonicalize lat1 lon1 lat2 lon2).latsign = -1) ∧
    ((canonicalize lat1 lon1 lat2 lon2).swapp = 1 ∨
      (canonicalize lat1 lon1 lat2 lon2).swapp = -1) := by
  unfold canonicalize
  dsimp only
  split_ifs <;> norm_num

/-- C4: for all non-NaN inputs with `|lat| ≤ 90`, the canonicalization step
of `GenInverse` produces `0 ≤ lon12 ≤ 180`, `−90 ≤ lat1 ≤ 0` and
`lat1 ≤ lat2 ≤ −lat1`; the three sign registers are each `±1`; and
`GenInverse` is exactly the canonical solve followed by the finalisation
that re-applies the registers (in reverse) to the azimuth components and to
`M12`/`M21` (swapping the pairs when `swapp < 0`, see `finalizeOut`). -/
theorem canonicalization_invariants (lat1 lon1 lat2 lon2 : ℝ)
    (h1 : |lat1| ≤ 90) (h2 : |lat2| ≤ 90) :
    (0 ≤ (canonicalize lat1 lon1 lat2 lon2).lon12 ∧
      (canonicalize lat1 lon1 lat2 lon2).lon12 ≤ 180) ∧
    (-90 ≤ (canonicalize lat1 lon1 lat2 lon2).lat1 ∧
      (canonicalize lat1 lon1 lat2 lon2).lat1 ≤ 0) ∧
    ((canonicalize lat1 lon1 lat2 lon2).lat1 ≤
        (canonicalize lat1 lon1 lat2 lon2).lat2 ∧
      (canonicalize lat1 lon1 lat2 lon2).lat2 ≤
        -(canonicalize lat1 lon1 lat2 lon2).lat1) ∧
    ((canonicalize lat1 lon1 lat2 lon2).lonsign = 1 ∨
      (canonicalize lat1 lon1 lat2 lon2).lonsign = -1) ∧
    ((canonicalize lat1 lon1 lat2 lon2).latsign = 1 ∨
      (canonicalize lat1 lon1 lat2 lon2).latsign = -1) ∧
    ((canonicalize lat1 lon1 lat2 lon2).swapp = 1 ∨
      (canonicalize lat1 lon1 lat2 lon2).swapp = -1) ∧
    (∀ (g : Geod) (api : EllipticAPI),
      GenInverse g api lat1 lon1 lat2 lon2 =
        finalizeOut (canonicalize lat1 lon1 lat2 lon2)
          (solveCanonical g api (canonicalize lat1 lon1 lat2 lon2))) := by
  obtain ⟨hb1, hb2, hb3, hb4⟩ := canon_lat_bounds lat1 lon1 lat2 lon2 h1 h2
  obtain ⟨hs1, hs2, hs3⟩ := canon_signs lat1 lon1 lat2 lon2
  exact ⟨canon_lon12_bounds lat1 lon1 lat2 lon2, ⟨hb1, hb2⟩, ⟨hb3, hb4⟩,
    hs1, hs2, hs3, fun g api => rfl⟩

/-- Witness for C4 at the concrete input `(0, 0, 0, 0)`. -/
theorem canonicalization_invariants_witness :
    |(0:ℝ)| ≤ 90 ∧
    ((0 ≤ (canonicalize 0 0 0 0).lon12 ∧ (canonicalize 0 0 0 0).lon12 ≤ 180) ∧
    (-90 ≤ (canonicalize 0 0 0 0).lat1 ∧ (canonicalize 0 0 0 0).lat1 ≤ 0) ∧
    ((canonicalize 0 0 0 0).lat1 ≤ (canonicalize 0 0 0 0).lat2 ∧
      (canonicalize 0 0 0 0).lat2 ≤ -(canonicalize 0 0 0 0).lat1) ∧
    ((canonicalize 0 0 0 0).lonsign = 1 ∨ (canonicalize 0 0 0 0).lonsign = -1) ∧
    ((canonicalize 0 0 0 0).latsign = 1 ∨ (canonicalize 0 0 0 0).latsign = -1) ∧
    ((canonicalize 0 0 0 0).swapp = 1 ∨ (canonicalize 0 0 0 0).swapp = -1) ∧
    (∀ (g : Geod) (api : EllipticAPI),
      GenInverse g api 0 0 0 0 =
        finalizeOut (canonicalize 0 0 0 0)
          (solveCanonical g api (canonicalize 0 0 0 0)))) :=
  ⟨by norm_num,
    canonicalization_invariants 0 0 0 0 (by norm_num) (by norm_num)⟩

/-! ## Claim C10: the returned arc length lies in [0, 180] -/

lemma degree_pos : 0 < degree := by
  unfold degree
  positivity

lemma div_degree_bounds (s : ℝ) (h0 : 0 ≤ s) (h1 : s ≤ π) :
    0 ≤ s / degree ∧ s / degree ≤ 180 := by
  constructor
  · exact div_nonneg h0 degree_pos.le
  · rw [div_le_iff₀ degree_pos]
    have : (180:ℝ) * degree = π := by
      unfold degree
      ring
    rw [this]
    exact h1

lemma Geod.f1_pos (g : Geod) (hg : g.Valid) : 0 < g.f1 := by
  have ha : 0 < g.a := hg.1
  have hb : 0 < g.a * g.f1 := hg.2.1
  by_contra hneg
  push_neg at hneg
  nlinarith

lemma gEx_valid : gEx.Valid := by
  unfold Geod.Valid gEx Geod.b Geod.f1
  norm_num

lemma nonMeridian_a12_range (g : Geod) (api : EllipticAPI) (c : Canon) (x : Aux)
    (hg : g.Valid) (hlon0 : 0 ≤ c.lon12) (hlon1 : c.lon12 ≤ 180)
    (hlons : c.lon12s = 180 - c.lon12) :
    0 ≤ (nonMeridianRaw g api c x).a12 ∧ (nonMeridianRaw g api c x).a12 ≤ 180 := by
  have hf1 : 0 < g.f1 := Geod.f1_pos g hg
  unfold nonMeridianRaw
  dsimp only
  split_ifs with he hshort
  · -- equatorial branch: a12 = lon12 / f1
    unfold equatorialRaw
    dsimp only
    constructor
    · exact div_nonneg hlon0 hf1.le
    · rcases he.2 with hf | hguard
      · have h1le : (1:ℝ) ≤ g.f1 := by
          have : g.f1 = 1 - g.f := rfl
          linarith
        calc c.lon12 / g.f1 ≤ c.lon12 := div_le_self hlon0 h1le
          _ ≤ 180 := hlon1
      · rw [hlons] at hguard
        rw [div_le_iff₀ hf1]
        have : g.f1 = 1 - g.f := rfl
        nlinarith
  · -- short-line branch: a12 = sig12 / degree with sig12 ∈ [0, π]
    unfold shortRaw
    dsimp only
    rcases InverseStart_sig12_cases g api (EllipticFunction.mk1 (-g.ep2))
        x.sbet1 x.cbet1 x.dn1 x.sbet2 x.cbet2 x.dn2 c.lam12 c.slam12 c.clam12 with
      hmone | ⟨hlo, hhi⟩
    · rw [hmone] at hshort
      norm_num at hshort
    · exact div_degree_bounds _ hlo hhi
  · -- Newton branch: a12 = sig12 / degree for the final loop state
    unfold newtonRaw
    dsimp only
    have hloop := newtonLoop_sig12_range g api
      { sbet1 := x.sbet1, cbet1 := x.cbet1, dn1 := x.dn1,
        sbet2 := x.sbet2, cbet2 := x.cbet2, dn2 := x.dn2,
        slam12 := c.slam12, clam12 := c.clam12 }
      g.maxit2 0
      { salp1 := (InverseStart g api (EllipticFunction.mk1 (-g.ep2))
          x.sbet1 x.cbet1 x.dn1 x.sbet2 x.cbet2 x.dn2 c.lam12 c.slam12
          c.clam12).salp1,
        calp1 := (InverseStart g api (EllipticFunction.mk1 (-g.ep2))
          x.sbet1 x.cbet1 x.dn1 x.sbet2 x.cbet2 x.dn2 c.lam12 c.slam12
          c.clam12).calp1,
        salp1a := g.tiny, calp1a := 1, salp1b := g.tiny, calp1b := -1,
        tripn := false, tripb := false,
        salp2 := 0, calp2 := 0, sig12 := 0, ssig1 := 0, csig1 := 0,
        ssig2 := 0, csig2 := 0, domg12 := 0,
        E := EllipticFunction.mk1 (-g.ep2) }
      (le_refl 0) Real.pi_pos.le
    exact div_degree_bounds _ hloop.1 hloop.2

lemma solve_a12_range (g : Geod) (api : EllipticAPI) (c : Canon)
    (hg : g.Valid) (hlon0 : 0 ≤ c.lon12) (hlon1 : c.lon12 ≤ 180)
    (hlons : c.lon12s = 180 - c.lon12) :
    0 ≤ (solveCanonical g api c).a12 ∧ (solveCanonical g api c).a12 ≤ 180 := by
  unfold solveCanonical
  dsimp only
  split_ifs with hm hacc hz
  · -- meridional, accepted, reset to exactly zero
    simpa using div_degree_bounds 0 (le_refl 0) Real.pi_pos.le
  · -- meridional, accepted
    exact div_degree_bounds _ (atan2_nonneg _ _ (fmax_zero_nonneg _))
      (atan2_le_pi _ _ (fmax_zero_nonneg _))
  · -- meridional rejected (prolate near-antipodal): fall through
    exact nonMeridian_a12_range g api c _ hg hlon0 hlon1 hlons
  · -- non-meridional
    exact nonMeridian_a12_range g api c _ hg hlon0 hlon1 hlons

/-- C10: for every valid engine, every interpretation of the elliptic
integrals, and all finite non-NaN inputs with `|lat| ≤ 90`, the arc length
`a12` returned by `GenInverse` lies in `[0, 180]`: every `σ12` that can
reach the output is produced by `atan2` with its sine argument clamped
non-negative (`fmax` against 0) — hence lies in `[0, π]` — or is the
equatorial `lon12/f1`, which the branch guard `lon12s ≥ f·180` keeps at or
below 180. -/
theorem a12_in_range (g : Geod) (api : EllipticAPI) (lat1 lon1 lat2 lon2 : ℝ)
    (hg : g.Valid) (h1 : |lat1| ≤ 90) (h2 : |lat2| ≤ 90) :
    0 ≤ (GenInverse g api lat1 lon1 lat2 lon2).a12 ∧
      (GenInverse g api lat1 lon1 lat2 lon2).a12 ≤ 180 := by
  have heq : (GenInverse g api lat1 lon1 lat2 lon2).a12 =
      (solveCanonical g api (canonicalize lat1 lon1 lat2 lon2)).a12 := rfl
  rw [heq]
  obtain ⟨hlon0, hlon1⟩ := canon_lon12_bounds lat1 lon1 lat2 lon2
  exact solve_a12_range g api _ hg hlon0 hlon1 (canon_lon12s_eq lat1 lon1 lat2 lon2)

/-- Witness for C10: the unit sphere with the trivial elliptic
interpretation at the coincident input `(0, 0, 0, 0)`. -/
theorem a12_in_range_witness :
    gEx.Valid ∧ |(0:ℝ)| ≤ 90 ∧
    (0 ≤ (GenInverse gEx apiZero 0 0 0 0).a12 ∧
      (GenInverse gEx apiZero 0 0 0 0).a12 ≤ 180) :=
  ⟨gEx_valid, by norm_num,
    a12_in_range gEx apiZero 0 0 0 0 gEx_valid (by norm_num) (by norm_num)⟩

/-! ## Claim C3: the equatorial branch of `GenInverse` -/

lemma sincosd_zero : sincosd 0 = (0, 1) := by
  unfold sincosd
  rw [zero_mul, Real.sin_zero, Real.cos_zero]

lemma sincosd_ninety : sincosd 90 = (1, 0) := by
  unfold sincosd degree
  have h : (90:ℝ) * (π / 180) = π / 2 := by ring
  rw [h, Real.sin_pi_div_two, Real.cos_pi_div_two]

lemma normPair_zero_one : normPair 0 1 = (0, 1) := by
  unfold normPair hypot
  norm_num

lemma atan2_zero_one : atan2 0 1 = 0 := by
  unfold atan2
  norm_num [Real.arctan_zero]

lemma atan2_zero_neg_one : atan2 0 (-1) = π := by
  unfold atan2
  norm_num [Real.arctan_zero]

lemma atan2_one_zero : atan2 1 0 = π / 2 := by
  unfold atan2
  norm_num

lemma atan2_neg_one_zero : atan2 (-1) 0 = -(π / 2) := by
  unfold atan2
  norm_num

lemma atan2d_one_zero : atan2d 1 0 = 90 := by
  unfold atan2d degree
  rw [atan2_one_zero]
  field_simp
  ring

lemma atan2d_neg_one_zero : atan2d (-1) 0 = -90 := by
  unfold atan2d degree
  rw [atan2_neg_one_zero]
  field_simp
  ring

lemma atan2d_zero_neg_one : atan2d 0 (-1) = 180 := by
  unfold atan2d degree
  rw [atan2_zero_neg_one]
  field_simp

lemma canon_zero_lats (lon1 lon2 : ℝ) :
    (canonicalize 0 lon1 0 lon2).lat1 = 0 ∧
    (canonicalize 0 lon1 0 lon2).lat2 = 0 ∧
    (canonicalize 0 lon1 0 lon2).swapp = 1 ∧
    (canonicalize 0 lon1 0 lon2).latsign = -1 := by
  have hLF : LatFix (0:ℝ) = 0 := LatFix_of_le 0 (by norm_num)
  unfold canonicalize
  dsimp only
  rw [hLF, AngRound_eq]
  norm_num

lemma auxSetup_equator (g : Geod) (c : Canon) (htiny : g.tiny ≤ 1)
    (h1 : c.lat1 = 0) (h2 : c.lat2 = 0) :
    (auxSetup g c).sbet1 = 0 ∧ (auxSetup g c).cbet1 = 1 ∧
    (auxSetup g c).sbet2 = 0 ∧ (auxSetup g c).cbet2 = 1 := by
  have hmax : fmax g.tiny 1 = 1 := max_eq_right htiny
  unfold auxSetup
  dsimp only
  rw [h1, h2, sincosd_zero]
  simp only [zero_mul, normPair_zero_one, hmax]
  norm_num

lemma solve_equatorial (g : Geod) (api : EllipticAPI) (c : Canon)
    (htiny : g.tiny ≤ 1) (h1 : c.lat1 = 0) (h2 : c.lat2 = 0)
    (hs : c.slam12 ≠ 0) (hguard : g.f ≤ 0 ∨ c.lon12s ≥ g.f * 180) :
    solveCanonical g api c = equatorialRaw g c := by
  obtain ⟨hb1, _, _, _⟩ := auxSetup_equator g c htiny h1 h2
  have hmer : ¬ (c.lat1 = -90 ∨ c.slam12 = 0) := by
    rw [h1]
    push_neg
    exact ⟨by norm_num, hs⟩
  unfold solveCanonical
  dsimp only
  rw [if_neg hmer]
  unfold nonMeridianRaw
  dsimp only
  rw [if_pos ⟨hb1, hguard⟩]

/-- C3 (amended as the counterexample below forces): on an engine with
`f ≥ 0`, `GenInverse` at `lat1 = lat2 = 0` takes the equatorial branch —
and then returns `α1 = α2 = ±90°`, `s12 = a·|λ12|`, `a12 = lon12/f1`,
`m12 = b·sin σ12` and `M12 = M21 = cos σ12` with `σ12 = λ12/f1` — exactly
when the canonical `sin λ12 ≠ 0` (the meridional branch handles `sin λ12 =
0`, in particular coincident points, returning azimuths 0 or 180 instead)
and `λ12s ≥ f·180` (the code's own guard; for `f > 0` a near-antipodal
equatorial pair is not solved along the equator). -/
theorem genInverse_equatorial (g : Geod) (api : EllipticAPI) (lon1 lon2 : ℝ)
    (hg : g.Valid) (hf : 0 ≤ g.f)
    (hs : (canonicalize 0 lon1 0 lon2).slam12 ≠ 0)
    (hguard : g.f ≤ 0 ∨ (canonicalize 0 lon1 0 lon2).lon12s ≥ g.f * 180) :
    ((GenInverse g api 0 lon1 0 lon2).azi1 = 90 ∨
      (GenInverse g api 0 lon1 0 lon2).azi1 = -90) ∧
    (GenInverse g api 0 lon1 0 lon2).azi2 =
      (GenInverse g api 0 lon1 0 lon2).azi1 ∧
    (GenInverse g api 0 lon1 0 lon2).s12 =
      g.a * |(canonicalize 0 lon1 0 lon2).lam12| ∧
    (GenInverse g api 0 lon1 0 lon2).a12 =
      (canonicalize 0 lon1 0 lon2).lon12 / g.f1 ∧
    (GenInverse g api 0 lon1 0 lon2).m12 =
      g.b * Real.sin ((canonicalize 0 lon1 0 lon2).lam12 / g.f1) ∧
    (GenInverse g api 0 lon1 0 lon2).M12 =
      Real.cos ((canonicalize 0 lon1 0 lon2).lam12 / g.f1) ∧
    (GenInverse g api 0 lon1 0 lon2).M21 =
      (GenInverse g api 0 lon1 0 lon2).M12 := by
  obtain ⟨hl1, hl2, hsw, hls⟩ := canon_zero_lats lon1 lon2
  have htiny : g.tiny ≤ 1 := hg.2.2.2.1
  have hsolve : solveCanonical g api (canonicalize 0 lon1 0 lon2) =
      equatorialRaw g (canonicalize 0 lon1 0 lon2) :=
    solve_equatorial g api _ htiny hl1 hl2 hs hguard
  have hlam : 0 ≤ (canonicalize 0 lon1 0 lon2).lam12 := by
    rw [canon_lam12_eq]
    exact mul_nonneg (canon_lon12_bounds 0 lon1 0 lon2).1 degree_pos.le
  have hG : GenInverse g api 0 lon1 0 lon2 =
      finalizeOut (canonicalize 0 lon1 0 lon2)
        (solveCanonical g api (canonicalize 0 lon1 0 lon2)) := rfl
  rw [hG, hsolve]
  unfold finalizeOut equatorialRaw
  dsimp only
  rw [hsw, hls, abs_of_nonneg hlam]
  norm_num
  rcases (canon_signs 0 lon1 0 lon2).1 with hL | hL <;> rw [hL] <;> norm_num
  · exact Or.inl atan2d_one_zero
  · exact Or.inr atan2d_neg_one_zero

lemma angDiff_zero_ninety : AngDiff 0 90 = (90, 0) := by
  have h0 : remainder 0 360 = 0 := remainder_of_small 0 (by norm_num) (by norm_num)
  have h90 : remainder 90 360 = 90 := remainder_of_small 90 (by norm_num) (by norm_num)
  unfold AngDiff
  simp only [sum_eq, neg_zero, h0, zero_add, add_zero, h90]
  norm_num

lemma canon_slam_ninety : (canonicalize 0 0 0 90).slam12 = 1 := by
  unfold canonicalize
  dsimp only
  rw [angDiff_zero_ninety]
  norm_num [AngRound_eq, sincosd_ninety]

/-- Witness for C3 (amended) on the unit sphere with `lon2 = 90`. -/
theorem genInverse_equatorial_witness :
    gEx.Valid ∧ 0 ≤ gEx.f ∧ (canonicalize 0 0 0 90).slam12 ≠ 0 ∧
    (gEx.f ≤ 0 ∨ (canonicalize 0 0 0 90).lon12s ≥ gEx.f * 180) ∧
    (((GenInverse gEx apiZero 0 0 0 90).azi1 = 90 ∨
      (GenInverse gEx apiZero 0 0 0 90).azi1 = -90) ∧
    (GenInverse gEx apiZero 0 0 0 90).azi2 =
      (GenInverse gEx apiZero 0 0 0 90).azi1 ∧
    (GenInverse gEx apiZero 0 0 0 90).s12 =
      gEx.a * |(canonicalize 0 0 0 90).lam12| ∧
    (GenInverse gEx apiZero 0 0 0 90).a12 =
      (canonicalize 0 0 0 90).lon12 / gEx.f1 ∧
    (GenInverse gEx apiZero 0 0 0 90).m12 =
      gEx.b * Real.sin ((canonicalize 0 0 0 90).lam12 / gEx.f1) ∧
    (GenInverse gEx apiZero 0 0 0 90).M12 =
      Real.cos ((canonicalize 0 0 0 90).lam12 / gEx.f1) ∧
    (GenInverse gEx apiZero 0 0 0 90).M21 =
      (GenInverse gEx apiZero 0 0 0 90).M12) :=
  ⟨gEx_valid, le_refl 0, by rw [canon_slam_ninety]; norm_num,
    Or.inl (le_refl 0),
    genInverse_equatorial gEx apiZero 0 90 gEx_valid (le_refl 0)
      (by rw [canon_slam_ninety]; norm_num) (Or.inl (le_refl 0))⟩

/-- The counterexample to C3 as frozen: at coincident equatorial points
(`lat = lon = 0` for both, sphere `a = 1`, `f = 0`) the meridional branch
fires (`sin λ12 = 0`) and `GenInverse` returns `azi1 = 180`, not `±90`. -/
theorem genInverse_equatorial_cex :
    (GenInverse gEx apiZero 0 0 0 0).azi1 = 180 ∧
    ¬ ((GenInverse gEx apiZero 0 0 0 0).azi1 = 90 ∨
      (GenInverse gEx apiZero 0 0 0 0).azi1 = -90) := by
  have h0 : remainder 0 360 = 0 := remainder_of_small 0 (by norm_num) (by norm_num)
  have hAD : AngDiff 0 0 = (0, 0) := by
    unfold AngDiff
    simp only [sum_eq, neg_zero, h0, add_zero, zero_add]
    norm_num [copysign]
  have hc : canonicalize 0 0 0 0 =
      { lon12 := 0, lon12s := 180, lam12 := 0, slam12 := 0, clam12 := 1,
        lat1 := 0, lat2 := 0, lonsign := 1, latsign := -1, swapp := 1 } := by
    have hLF : LatFix (0:ℝ) = 0 := LatFix_of_le 0 (by norm_num)
    unfold canonicalize
    dsimp only
    rw [hAD]
    norm_num [AngRound_eq, hLF, sincosd_zero]
  have haux : auxSetup gEx (canonicalize 0 0 0 0) =
      { sbet1 := 0, cbet1 := 1, dn1 := 1, sbet2 := 0, cbet2 := 1, dn2 := 1 } := by
    have hmax : fmax gEx.tiny 1 = 1 := max_eq_right (by norm_num [gEx])
    unfold auxSetup
    dsimp only
    rw [hc]
    dsimp only
    rw [sincosd_zero]
    simp only [zero_mul, normPair_zero_one, hmax]
    norm_num [gEx, Geod.f1, Geod.e2, Geod.ep2, sq]
  have hazi : (GenInverse gEx apiZero 0 0 0 0).azi1 = 180 := by
    have hG : GenInverse gEx apiZero 0 0 0 0 =
        finalizeOut (canonicalize 0 0 0 0)
          (solveCanonical gEx apiZero (canonicalize 0 0 0 0)) := rfl
    rw [hG]
    unfold solveCanonical
    dsimp only
    rw [haux, hc]
    norm_num [finalizeOut, fmax, atan2_zero_one, atan2d_zero_neg_one, gEx]
  refine ⟨hazi, ?_⟩
  rw [hazi]
  norm_num

end

end GeographicLib
